import Mathlib

/-!
Verification of the SizeFS repository (an in-memory mock filesystem whose
file contents are generated on demand).  The definitions below are a
shallow embedding of `sizefs/contents.py` and `sizefs/sizefsFuse.py`:
Python strings become `List Char`, mutable generator objects become
explicit state passing, `random.randint` draws from an explicit oracle
tape, and Python exceptions become `Except` values.
-/

set_option maxRecDepth 200000
set_option maxHeartbeats 2000000

/-- Python strings are modelled as lists of characters. -/
abbrev Str := List Char

/-- The oracle tape feeding `random.randint`: a list of raw draws.
An exhausted tape yields 0 (the tape is always chosen long enough in
concrete runs; theorems about randomized behaviour quantify over it). -/
abbrev Rng := List Nat

/-- Take one raw draw off the oracle tape. -/
def Rng.next : Rng → Nat × Rng
  | [] => (0, [])
  | d :: ds => (d, ds)

/-- `random.randint(lo, hi)` (both bounds inclusive), driven by one raw
draw from the oracle.  The result always lies in `[lo, hi]` when
`lo ≤ hi`. -/
def randint (lo hi d : Nat) : Nat :=
  lo + d % (hi + 1 - lo)

/-- Draw `n` values via `randint lo hi`, threading the oracle tape. -/
def drawList (lo hi : Nat) : Nat → Rng → List Nat × Rng
  | 0, rng => ([], rng)
  | n + 1, rng =>
      let (d, rng') := rng.next
      let (rest, rng'') := drawList lo hi n rng'
      (randint lo hi d :: rest, rng'')

/-- `FastRandom` from `contents.py`: a ring of 255 pre-sampled values in
`[min, max]` plus a cursor.  `rand()` returns the value under the cursor
and advances it, wrapping at the end of the ring. -/
structure FastRandom where
  lo : Nat
  hi : Nat
  randoms : List Nat
  index : Nat
  deriving Repr, DecidableEq

instance : Inhabited FastRandom := ⟨⟨0, 0, [], 0⟩⟩

/-- `FastRandom.__init__(min, max, len=255)`. -/
def FastRandom.init (lo hi : Nat) (rng : Rng) : FastRandom × Rng :=
  let (rs, rng') := drawList lo hi 255 rng
  (⟨lo, hi, rs, 0⟩, rng')

/-- `FastRandom.rand()`: return the current ring value and advance the
cursor (wrapping to 0 at the end of the ring). -/
def FastRandom.rand (f : FastRandom) : Nat × FastRandom :=
  let value := f.randoms.getD f.index 0
  if f.index < f.randoms.length - 1 then
    (value, { f with index := f.index + 1 })
  else
    (value, { f with index := 0 })

/-! ## Trivial generators (`SizeFSGen` family, `contents.py`) -/

/-- `SizeFSGen.fill`: the loop keeps appending the whole seed string while
more than one seed length is still needed, then appends the truncated
seed; total output length is exactly the requested amount.  The loop is
written with a fuel argument (initially `n`), which is ample because the
non-empty seed strictly shrinks `n` on every iteration. -/
def SizeFSGen.fillAux (chars : Str) : Nat → Nat → Str
  | 0, n => chars.take n
  | fuel + 1, n =>
      if n > chars.length then chars ++ SizeFSGen.fillAux chars fuel (n - chars.length)
      else chars.take n

/-- `SizeFSGen.fill` with the source's empty-seed guard. -/
def SizeFSGen.fill (chars : Str) (n : Nat) : Str :=
  if chars.length = 0 then [] else SizeFSGen.fillAux chars n n

/-- `SizeFSGen.read(start, end)`: the seed repeated `end - start + 1`
times (for the zeros/ones subclasses the seed is a single character). -/
def SizeFSGen.read (chars : Str) (s e : Int) : Str :=
  if s ≤ e then List.flatten (List.replicate (e - s + 1).toNat chars) else []

/-- `SizeFSAlphaNumGen.read(start, end)`: overrides the base read and
returns `fill(end - start)` characters — note the missing `+ 1`. -/
def SizeFSAlphaNumGen.read (chars : Str) (s e : Int) : Str :=
  if s ≤ e then SizeFSGen.fill chars (e - s).toNat else []

/-- The alphabet `ascii_uppercase + digits + ascii_lowercase` used by
`SizeFSAlphaNumGen`. -/
def alphaNumChars : Str :=
  "ABCDEFGHIJKLMNOPQRSTUVWXYZ0123456789abcdefghijklmnopqrstuvwxyz".data

/-- `random.choice(CHARS)` modelled through one oracle draw. -/
def randChoice (chars : Str) (d : Nat) : Char :=
  chars.getD (d % chars.length) 'A'

/-- The pre-sampled 64 KiB buffer built in `SizeFSAlphaNumGen.__init__`. -/
def buildAlphaBuffer : Nat → Rng → Str × Rng
  | 0, rng => ([], rng)
  | n + 1, rng =>
      let (d, rng') := rng.next
      let (rest, rng'') := buildAlphaBuffer n rng'
      (randChoice alphaNumChars d :: rest, rng'')

example : SizeFSGen.read ['0'] 0 4 = "00000".data := by decide
example : (SizeFSAlphaNumGen.read ("ABCDE".data) 0 4).length = 4 := by decide
example : randint 1 10 23 = 4 := by decide

/-! ## Xeger pattern parser (`contents.py`)

The parse tree mirrors the object graph built by `XegerPattern` /
`XegerExpression` / `XegerSequence` / `XegerSet` / `XegerMultiplier`.
Each `FastRandom` owned by a set or by a random multiplier is stored in a
side list of cells (`Cells`) and referenced by index, so that generation
can mutate the ring cursors by ordinary state passing. -/

/-- Error kinds corresponding to the `XegerError` raise sites (plus
`indexErr` for a bare `IndexError` from popping an empty list,
`valueError` for `random.randint` on an empty range, and `fuel` standing
for non-termination of the source). -/
inductive XErr where
  | multNoExpr | multErr | multIllegalEnd | multIncomplete | multNotNumber
  | setErr | setIncomplete | setReserved
  | incompleteExpr | indexErr | valueError | fuel
  deriving Repr, DecidableEq

abbrev Cells := List FastRandom

mutual
inductive XAtom where
  | seq (s : Str)
  | cset (choices : Str) (rid : Nat)
  | pat (subs : List XExpr)

inductive XExpr where
  | plain (a : XAtom)
  | constMult (a : XAtom) (n : Int)
  | randMult (a : XAtom) (rid : Nat)
end

/-- `Xeger.__init__` collapses a one-expression pattern to the expression
itself; `many` keeps the `XegerPattern` expression list. -/
inductive XegerTop where
  | single (e : XExpr)
  | many (es : List XExpr)

/-- `XegerGen.reserved_chars`. -/
def reservedChars : Str := ['[', ']', '{', '}', '*', '+', '?']

/-- Python `int(...)` on the digit run collected inside `{…}`: optional
surrounding spaces, optional sign, then at least one digit. -/
def pyInt (s : Str) : Option Int :=
  let t := (s.dropWhile (· = ' ')).reverse.dropWhile (· = ' ') |>.reverse
  let (sign, digits) :=
    match t with
    | '-' :: r => (true, r)
    | '+' :: r => (false, r)
    | r => (false, r)
  if digits ≠ [] ∧ digits.all Char.isDigit then
    let n := digits.foldl (fun acc c => acc * 10 + (c.toNat - '0'.toNat)) 0
    some (if sign then -(n : Int) else (n : Int))
  else none

/-- Result of `XegerMultiplier._get_multiplier`: either a constant repeat
count or a `FastRandom` for `*` / `+` / `?`. -/
inductive MultParsed where
  | constant (n : Int)
  | random (fr : FastRandom)

/-- `XegerMultiplier._get_multiplier`.  The `maxRandom` argument is the
constructor parameter; every call site in `XegerExpression` constructs
`XegerMultiplier(regex)` without forwarding its own `max_random`, so the
constructor default 10 is what is actually passed here. -/
def parseMultGo (maxRandom : Nat) (mult : Str) (started : Bool) :
    Str → Rng → Except XErr (MultParsed × Str × Rng)
  | [], rng =>
      if started then .error .multIncomplete
      else .ok (.constant 1, [], rng)
  | c :: rest, rng =>
      if c = '{' then
        if mult ≠ [] then .error .multErr
        else parseMultGo maxRandom mult true rest rng
      else if c = '}' then
        if mult ≠ [] then
          match pyInt mult with
          | some n => .ok (.constant n, rest, rng)
          | none => .error .multNotNumber
        else .error .multIllegalEnd
      else if c = '*' ∨ c = '+' ∨ c = '?' then
        if started then .error .multErr
        else
          let (fr, rng') :=
            if c = '+' then FastRandom.init 1 maxRandom rng
            else if c = '*' then FastRandom.init 0 maxRandom rng
            else FastRandom.init 0 1 rng
          .ok (.random fr, rest, rng')
      else
        if started then parseMultGo maxRandom (mult ++ [c]) started rest rng
        else .ok (.constant 1, c :: rest, rng)

/-- `XegerSet._char_range` (inclusive code-point range; empty when the
bounds are reversed, as Python's `range`). -/
def charRange (a b : Char) : Str :=
  (List.range (b.toNat + 1 - a.toNat)).map (fun i => Char.ofNat (a.toNat + i))

/-- `XegerSet._parse_set`: returns the member list and the rest of the
input after the closing `]`.  `ch1` models the last-seen-character
variable of the source. -/
def parseSetGo (ch1 : Option Char) (select : Str) :
    Str → Except XErr (Str × Str)
  | [] => .error .setIncomplete
  | c :: rest =>
      if c = ']' then
        if ch1 ≠ none then .ok (select, rest) else .error .setErr
      else if c = '-' then
        match ch1 with
        | none => .error .setErr
        | some a =>
            match rest with
            | [] => .error .setIncomplete
            | b :: rest' => parseSetGo ch1 (select.dropLast ++ charRange a b) rest'
      else if c = '\\' then
        match rest with
        | [] => .error .indexErr
        | c2 :: rest' => parseSetGo (some c2) (select ++ [c2]) rest'
      else if c ∈ reservedChars then .error .setReserved
      else parseSetGo (some c) (select ++ [c]) rest

/-- `XegerExpression._get_nested_pattern_input`, with a fuel argument for
the recursion into nested parentheses. -/
def getNestedGo : Nat → Str → Str → Except XErr (Str × Str)
  | _, _, [] => .error .incompleteExpr
  | 0, _, _ :: _ => .error .fuel
  | fuel + 1, accum, c :: rest =>
      if c = '(' then
        match getNestedGo fuel [] rest with
        | .ok (inner, rest') =>
            getNestedGo fuel (accum ++ '(' :: inner ++ [')']) rest'
        | .error e => .error e
      else if c = ')' then .ok (accum, rest)
      else getNestedGo fuel (accum ++ [c]) rest

/-- `XegerExpression._is_constant_multiplier` combined with the way
`XegerPattern._parse_expressions` stores a bare generator when the
multiplier is `None`: a constant 1 collapses to `plain`, any other
constant stays as a counted repeat, and a random multiplier allocates a
`FastRandom` cell. -/
def mkExpr (atom : XAtom) (multP : MultParsed) (cells : Cells) : XExpr × Cells :=
  match multP with
  | .constant n => if n = 1 then (.plain atom, cells) else (.constMult atom n, cells)
  | .random fr => (.randMult atom cells.length, cells ++ [fr])

mutual
/-- `XegerExpression._get_generator` (the accumulator loop). -/
def parseExprGo (maxRandom : Nat) :
    Nat → Str → Str → Cells → Rng → Except XErr (XExpr × Str × Cells × Rng)
  | 0, _, _, _, _ => .error .fuel
  | _ + 1, accum, [], cells, rng =>
      -- loop exhausted: anything accumulated is a plain sequence; an
      -- empty accumulator here would leave `_generator` unset in the
      -- source (an `AttributeError` on the next use), and is unreachable
      -- from `XegerPattern._parse_expressions`, which only constructs
      -- expressions from a non-empty input.
      if accum ≠ [] then .ok (.plain (.seq accum), [], cells, rng)
      else .error .indexErr
  | fuel + 1, accum, c :: rest, cells, rng =>
      if c = '(' then
        if accum = [] then
          match getNestedGo fuel [] rest with
          | .error e => .error e
          | .ok (inner, rest') =>
              match parsePatternGo maxRandom fuel inner cells rng with
              | .error e => .error e
              | .ok (subs, cells', rng') =>
                  -- the source builds `XegerMultiplier(regex)` here,
                  -- leaving `max_random` at its default of 10
                  match parseMultGo 10 [] false rest' rng' with
                  | .error e => .error e
                  | .ok (multP, rest'', rng'') =>
                      let (e, cells'') := mkExpr (.pat subs) multP cells'
                      .ok (e, rest'', cells'', rng'')
        else .ok (.plain (.seq accum), c :: rest, cells, rng)
      else if c = '[' then
        if accum = [] then
          match parseSetGo none [] rest with
          | .error e => .error e
          | .ok (select, rest') =>
              if select.length = 0 then .error .valueError
              else
                let (fr, rng') := FastRandom.init 0 (select.length - 1) rng
                let rid := cells.length
                let cells' := cells ++ [fr]
                -- again `XegerMultiplier(regex)` with the default 10
                match parseMultGo 10 [] false rest' rng' with
                | .error e => .error e
                | .ok (multP, rest'', rng'') =>
                    let (e, cells'') := mkExpr (.cset select rid) multP cells'
                    .ok (e, rest'', cells'', rng'')
        else .ok (.plain (.seq accum), c :: rest, cells, rng)
      else if c = '\\' then
        match rest with
        | [] => .error .indexErr
        | c2 :: rest' => parseExprGo maxRandom fuel (accum ++ [c2]) rest' cells rng
      else if c = '{' ∨ c = '*' ∨ c = '+' ∨ c = '?' then
        if accum.length = 1 then
          match parseMultGo 10 [] false (c :: rest) rng with
          | .error e => .error e
          | .ok (multP, rest', rng') =>
              let (e, cells') := mkExpr (.seq accum) multP cells
              .ok (e, rest', cells', rng')
        else if accum.length > 1 then
          -- peel off the last literal as the multiplied atom and return
          -- the preceding literals as a plain sequence
          .ok (.plain (.seq accum.dropLast), accum.getLastD ' ' :: c :: rest, cells, rng)
        else .error .multNoExpr
      else parseExprGo maxRandom fuel (accum ++ [c]) rest cells rng

/-- `XegerPattern._parse_expressions`: parse expressions while input
remains. -/
def parsePatternGo (maxRandom : Nat) :
    Nat → Str → Cells → Rng → Except XErr (List XExpr × Cells × Rng)
  | 0, _, _, _ => .error .fuel
  | _ + 1, [], cells, rng => .ok ([], cells, rng)
  | fuel + 1, c :: rest, cells, rng =>
      match parseExprGo maxRandom fuel [] (c :: rest) cells rng with
      | .error e => .error e
      | .ok (e, rest', cells', rng') =>
          match parsePatternGo maxRandom fuel rest' cells' rng' with
          | .error e => .error e
          | .ok (es, cells'', rng'') => .ok (e :: es, cells'', rng'')
end

/-- Fuel that amply covers the source's parse recursion (each recursive
call consumes one unit; the total number of calls is quadratic in the
input length at worst). -/
def parseFuel (regex : Str) : Nat :=
  (regex.length + 4) * (regex.length + 4)

/-- `Xeger.__init__`: parse the pattern, collapsing a single-expression
pattern to the expression itself. -/
def Xeger.init (regex : Str) (maxRandom : Nat) (cells : Cells) (rng : Rng) :
    Except XErr (XegerTop × Cells × Rng) :=
  match parsePatternGo maxRandom (parseFuel regex) regex cells rng with
  | .error e => .error e
  | .ok (es, cells', rng') =>
      match es with
      | [e] => .ok (.single e, cells', rng')
      | _ => .ok (.many es, cells', rng')

/-! ## Generation (`generate` methods of the parse-tree classes)

Python threads a mutable content list and a running length through every
`generate` call and mutates the `FastRandom` objects inside the tree.
Here the content is a list of slices kept in reverse order (append =
cons), and the `FastRandom` cells live in `GSt.cells`, addressed by the
indices stored in the tree. -/

structure GSt where
  contentRev : List Str
  length : Nat
  cells : Cells

/-- `rand()` on the `FastRandom` cell `rid`, writing the advanced cursor
back into the cell store. -/
def randCell (rid : Nat) (st : GSt) : Nat × GSt :=
  let fr := st.cells.getD rid default
  let (v, fr') := fr.rand
  (v, { st with cells := st.cells.set rid fr' })

/-- One call frame of the mutually recursive `generate` methods
(`XegerSequence`/`XegerSet`/nested-`XegerPattern` objects, the
`XegerPattern` fold, `XegerExpression.generate`, and its
`for x in xrange(mult)` loop). -/
inductive GenCall where
  | atom (a : XAtom)
  | exprList (es : List XExpr)
  | expr (e : XExpr)
  | iter (a : XAtom) (n : Nat)

/-- One step of `generate`, with `rec` standing for the recursive calls:
* `atom (seq s)` — `XegerSequence.generate`: append the literal slice;
* `atom (cset …)` — `XegerSet.generate`: append one sampled member;
* `atom (pat subs)` — nested `XegerPattern.generate`;
* `exprList es` — `XegerPattern.generate`: fold over the expressions,
  summing the appended-slice counts;
* `expr e` — `XegerExpression.generate` (a bare generator is called
  directly; a constant or sampled multiplier iterates the child);
* `iter a n` — the `for x in xrange(mult)` loop (`xrange` of a negative
  constant is empty, hence the `Int.toNat` at the call site). -/
def genGo (rec : GenCall → GSt → Option (Nat × GSt)) :
    GenCall → GSt → Option (Nat × GSt)
  | .atom (.seq s), st =>
      some (1, { st with contentRev := s :: st.contentRev,
                         length := st.length + s.length })
  | .atom (.cset choices rid), st =>
      let (v, st') := randCell rid st
      let ch := choices.getD v ' '
      some (1, { st' with contentRev := [ch] :: st'.contentRev,
                          length := st'.length + 1 })
  | .atom (.pat subs), st => rec (.exprList subs) st
  | .exprList [], st => some (0, st)
  | .exprList (e :: es), st =>
      match rec (.expr e) st with
      | none => none
      | some (i, st') =>
          match rec (.exprList es) st' with
          | none => none
          | some (j, st'') => some (i + j, st'')
  | .expr (.plain a), st => rec (.atom a) st
  | .expr (.constMult a n), st => rec (.iter a n.toNat) st
  | .expr (.randMult a rid), st =>
      let (m, st') := randCell rid st
      rec (.iter a m) st'
  | .iter _ 0, st => some (0, st)
  | .iter a (n + 1), st =>
      match rec (.atom a) st with
      | none => none
      | some (i, st') =>
          match rec (.iter a n) st' with
          | none => none
          | some (j, st'') => some (i + j, st'')

/-- The fueled fixpoint of `genGo` (the call depth of the source is
finite; `none` on exhaustion never occurs with the ample fuel below). -/
def genCallF (fuelN : Nat) : GenCall → GSt → Option (Nat × GSt) :=
  Nat.rec (motive := fun _ => GenCall → GSt → Option (Nat × GSt))
    (fun _ _ => none) (fun _ ih => genGo ih) fuelN

/-- Ample fuel for one emission step (an emission of the patterns in
this development makes well under a million nested calls). -/
def emissionFuel : Nat := 1000000

/-- `generate` of the object stored by `Xeger.__init__` (either the
single collapsed expression or the whole pattern). -/
def genTop (top : XegerTop) (st : GSt) : Option (Nat × GSt) :=
  match top with
  | .single e => genCallF emissionFuel (.expr e) st
  | .many es => genCallF emissionFuel (.exprList es) st

/-! ## `XegerGen` (`contents.py`) -/

/-- Runtime failures of `XegerGen.read`: `unboundNewItems` is the
`UnboundLocalError` raised when the overrun branch runs although the
filler loop never did (so `new_items` was never assigned); `fuel` stands
for a non-terminating generation loop (a filler or padder whose emission
adds nothing). -/
inductive RunErr where
  | unboundNewItems
  | fuel
  deriving Repr, DecidableEq

structure XegerGen where
  size : Nat
  endLastRead : Int
  remainder : Str
  remLen : Nat
  filler : XegerTop
  padder : XegerTop
  pfx : Str
  pfxLen : Nat
  sfx : Str
  sfxLen : Nat
  cells : Cells

/-- Eager materialization of a prefix/suffix pattern in
`XegerGen.__init__`: a throwaway `Xeger` is built and generated once; its
`FastRandom` cells are discarded afterwards. -/
def materializeFixed (pat : Option Str) (maxRandom : Nat) (rng : Rng) :
    Except XErr (Str × Nat × Rng) :=
  match pat with
  | none => .ok ([], 0, rng)
  | some p =>
      match Xeger.init p maxRandom [] rng with
      | .error e => .error e
      | .ok (top, cells, rng') =>
          match genTop top ⟨[], 0, cells⟩ with
          | none => .error .fuel
          | some (_, st) => .ok (st.contentRev.reverse.flatten, st.length, rng')

/-- `XegerGen.__init__`.  The empty-string checks form an `if`/`elif`
chain, so only the first empty argument (in the order filler, padder,
prefix, suffix) is reset to its default; later simultaneous empty
strings are parsed as empty patterns.  The warning for
`size < prefix_len + suffix_len` only logs and is omitted. -/
def XegerGen.init (size : Nat) (fillerA pfxA sfxA padderA : Option Str)
    (maxRandom : Nat) (rng : Rng) : Except XErr (XegerGen × Rng) :=
  let (fillerA, padderA, pfxA, sfxA) :=
    if fillerA = some [] then (none, padderA, pfxA, sfxA)
    else if padderA = some [] then (fillerA, none, pfxA, sfxA)
    else if pfxA = some [] then (fillerA, padderA, none, sfxA)
    else if sfxA = some [] then (fillerA, padderA, pfxA, none)
    else (fillerA, padderA, pfxA, sfxA)
  match Xeger.init (match fillerA with | some f => f | none => ['0']) maxRandom [] rng with
  | .error e => .error e
  | .ok (fillerTop, cells1, rng1) =>
  match Xeger.init (match padderA with | some p => p | none => ['0']) maxRandom cells1 rng1 with
  | .error e => .error e
  | .ok (padderTop, cells2, rng2) =>
  match materializeFixed pfxA maxRandom rng2 with
  | .error e => .error e
  | .ok (pfxS, pfxL, rng3) =>
  match materializeFixed sfxA maxRandom rng3 with
  | .error e => .error e
  | .ok (sfxS, sfxL, rng4) =>
      .ok ({ size := size, endLastRead := 0, remainder := [], remLen := 0,
             filler := fillerTop, padder := padderTop,
             pfx := pfxS, pfxLen := pfxL, sfx := sfxS, sfxLen := sfxL,
             cells := cells2 }, rng4)

/-- The `while pad_length < size` loop of `XegerGen._get_padding`; fuel
exhaustion models the source looping forever on an unproductive
padder. -/
def getPaddingGo (padder : XegerTop) : Nat → GSt → Int → Except RunErr GSt
  | 0, _, _ => .error .fuel
  | fuel + 1, st, size =>
      if (st.length : Int) < size then
        match genTop padder st with
        | none => .error .fuel
        | some (_, st') => getPaddingGo padder fuel st' size
      else .ok st

/-- `XegerGen._get_padding`: padder emissions joined and truncated
byte-exact to the requested size. -/
def XegerGen.getPadding (padder : XegerTop) (cells : Cells) (size : Int) :
    Except RunErr (Str × Cells) :=
  match getPaddingGo padder (size.toNat + 256) ⟨[], 0, cells⟩ size with
  | .error e => .error e
  | .ok st => .ok ((st.contentRev.reverse.flatten).take size.toNat, st.cells)

/-- The `while content_length < still_required` loop of `XegerGen.read`.
Returns the `new_items` count of the last filler emission, or `none`
when the loop body never ran (in which case `new_items` is an unbound
local in the source). -/
def grabContent (filler : XegerTop) :
    Nat → Option Nat → GSt → Int → Except RunErr (Option Nat × GSt)
  | 0, ni, st, still =>
      if (st.length : Int) < still then .error .fuel else .ok (ni, st)
  | fuel + 1, ni, st, still =>
      if (st.length : Int) < still then
        match genTop filler st with
        | none => .error .fuel
        | some (items, st') => grabContent filler fuel (some items) st' still
      else .ok (ni, st)

/-- `XegerGen.read(start, end)` (inclusive `end`).  Content slices are
accumulated newest-first (`contentRev`); the final result reverses and
flattens them, matching the source's `"".join(content)`. -/
def XegerGen.read (g0 : XegerGen) (start0 end0 : Int) :
    Except RunErr Str × XegerGen :=
  let size : Int := (g0.size : Int)
  let e1 : Int := if end0 > size - 1 then size - 1 else end0
  let s1 : Int := if start0 < 0 then 0 else start0
  -- the source assigns `self._end_last_read = end` here, *before* the
  -- sequential-read comparison below
  let g1 := { g0 with endLastRead := e1 }
  let (content0, len0, g2) :=
    if s1 < (g1.pfxLen : Int) then
      ([g1.pfx.drop s1.toNat], g1.pfxLen - s1.toNat,
       { g1 with remainder := [], remLen := 0 })
    else if s1 = g1.endLastRead + 1 then
      ([g1.remainder], g1.remLen, { g1 with remainder := [], remLen := 0 })
    else ([], 0, g1)
  let chunk : Int := (e1 + 1) - s1
  let lastRequired : Bool := e1 > size - (g2.sfxLen : Int)
  let last : Str :=
    if lastRequired then g2.sfx.take ((g2.sfxLen : Int) + (e1 - (size - 1))).toNat
    else []
  let still : Int := if lastRequired then chunk - (last.length : Int) else chunk
  match grabContent g2.filler (still.toNat + 256) none ⟨content0, len0, g2.cells⟩ still with
  | .error e => (.error e, g2)
  | .ok (newItems, st) =>
      if (st.length : Int) > still then
        match newItems with
        | none => (.error .unboundNewItems, { g2 with cells := st.cells })
        | some ni =>
            let overrun : Nat := ((st.length : Int) - still).toNat
            let popped := st.contentRev.take ni
            let kept := st.contentRev.drop ni
            let ocs : Str := popped.reverse.flatten
            let ocsLen := ocs.length
            if (e1 + (overrun : Int)) > (size - 1 - (g2.sfxLen : Int)) then
              let contentLen' := st.length - ocsLen
              let padReq : Int := still - (contentLen' : Int)
              match XegerGen.getPadding g2.padder st.cells padReq with
              | .error e => (.error e, { g2 with cells := st.cells })
              | .ok (pad, cells') =>
                  let withPad := pad :: kept
                  let final := if lastRequired then last :: withPad else withPad
                  (.ok final.reverse.flatten, { g2 with cells := cells' })
            else
              let thisTime := ocsLen - overrun
              let final := ocs.take thisTime :: kept
              (.ok final.reverse.flatten,
               { g2 with remainder := ocs.drop thisTime,
                         remLen := (ocs.drop thisTime).length,
                         cells := st.cells })
      else if (st.length : Int) = still then
        let final := if lastRequired then last :: st.contentRev else st.contentRev
        (.ok final.reverse.flatten, { g2 with cells := st.cells })
      else
        -- unreachable: the loop only stops once `content_length ≥
        -- still_required`; the source would fall through and return the
        -- joined content as is
        (.ok st.contentRev.reverse.flatten, { g2 with cells := st.cells })

/-- Build an `XegerGen` from plain string options (test helper mirroring
the keyword-argument constructor calls of the test-suite). -/
def mkXeger (size : Nat) (fillerA pfxA sfxA padderA : Option String)
    (maxRandom : Nat) : Except XErr XegerGen :=
  match XegerGen.init size (fillerA.map String.data) (pfxA.map String.data)
      (sfxA.map String.data) (padderA.map String.data) maxRandom [] with
  | .error e => .error e
  | .ok (g, _) => .ok g

/-- First read of a freshly constructed generator (test helper). -/
def mkXegerRead (size : Nat) (fillerA pfxA sfxA padderA : Option String)
    (maxRandom : Nat) (s e : Int) : Except RunErr Str :=
  match mkXeger size fillerA pfxA sfxA padderA maxRandom with
  | .error _ => .error .fuel
  | .ok g => (g.read s e).1

deriving instance DecidableEq for Except

-- Validation against the repository's own unit tests (`test_contents.py`).
example : mkXegerRead 1024 (some "0") none none none 10 0 15 =
    .ok "0000000000000000".data := by decide
example : mkXegerRead 10 none (some "XX") none none 10 0 10 =
    .ok "XX00000000".data := by decide
example : mkXegerRead 20 none (some "XX") none none 10 10 20 =
    .ok "0000000000".data := by decide
example : mkXegerRead 10 none (some "XX") none none 10 (-10) 10 =
    .ok "XX00000000".data := by decide
example : mkXegerRead 1024 (some "ab") none none none 10 0 15 =
    .ok "abababababababab".data := by decide
example : mkXegerRead 16 (some "a(bc){5}d") none none none 10 0 15 =
    .ok "abcbcbcbcbcd0000".data := by decide
example : mkXegerRead 1024 (some "a(bc){5}d") none none none 10 0 15 =
    .ok "abcbcbcbcbcdabcb".data := by decide
example : mkXegerRead 16 none none (some "1111") none 10 0 15 =
    .ok "0000000000001111".data := by decide
example : mkXegerRead 64 (some "55555") none (some "9999999999") (some "longer") 10 0 63 =
    .ok "55555555555555555555555555555555555555555555555555long9999999999".data := by decide

/-! ## Generator objects as resolved by `_create_generator` -/

/-- The generator flavours stored in a file record: `sized` covers the
`SizeFSGen` family (zeros/ones share the base `read`), `alphaNum` the
pre-sampled alphanumeric generator with its overriding `read`, and
`xeger` the regex generator. -/
inductive Generator where
  | sized (chars : Str)
  | alphaNum (chars : Str)
  | xeger (g : XegerGen)

/-- Dispatch `generator.read(start, end)`; the Xeger generator mutates
its own state (remainder, cursor, rings), returned as the second
component. -/
def Generator.read : Generator → Int → Int → Except RunErr Str × Generator
  | .sized chars, s, e => (.ok (SizeFSGen.read chars s e), .sized chars)
  | .alphaNum chars, s, e => (.ok (SizeFSAlphaNumGen.read chars s e), .alphaNum chars)
  | .xeger g, s, e =>
      let (r, g') := g.read s e
      (r, .xeger g')

/-! ## Filesystem namespace (`sizefsFuse.py`)

Python dicts become insertion-ordered association lists; `time()` reads
an abstract monotone clock (`FsState.clock`) and advances it; the global
`random` module state is the oracle tape `FsState.rng`. -/

/-- Stat-like attribute record.  The source stores plain dicts; the root
folder's dict lacks `st_size` (modelled as 0, never read). -/
structure Attrs where
  stMode : Nat
  stNlink : Nat
  stSize : Nat
  stCtime : Nat
  stMtime : Nat
  stAtime : Nat
  deriving Repr, DecidableEq

instance : Inhabited Attrs := ⟨⟨0, 0, 0, 0, 0, 0⟩⟩

/-- `S_IFDIR | 0664`. -/
def dirMode : Nat := Nat.lor 16384 436

/-- `S_IFREG | 0444`. -/
def regMode : Nat := Nat.lor 32768 292

structure FileRec where
  attrs : Attrs
  generator : Generator

/-- One path's xattr dict: canonical name to value. -/
abbrev XMap := List (Str × Str)

structure FsState where
  folders : List (Str × Attrs)
  files : List (Str × FileRec)
  xattrs : List (Str × XMap)
  fd : Nat
  clock : Nat
  rng : Rng

/-- Dict lookup (association list, first match). -/
def lookupD {α : Type} : List (Str × α) → Str → Option α
  | [], _ => none
  | (k', v) :: rest, k => if k' = k then some v else lookupD rest k

/-- Dict assignment: replace in place, or append a fresh key. -/
def setD {α : Type} : List (Str × α) → Str → α → List (Str × α)
  | [], k, v => [(k, v)]
  | (k', v') :: rest, k, v =>
      if k' = k then (k, v) :: rest else (k', v') :: setD rest k v

/-- Dict `pop`/`del`. -/
def eraseD {α : Type} : List (Str × α) → Str → List (Str × α)
  | [], _ => []
  | (k', v') :: rest, k => if k' = k then rest else (k', v') :: eraseD rest k

/-- Dict membership. -/
def memD {α : Type} (m : List (Str × α)) (k : Str) : Bool :=
  (lookupD m k).isSome

/-- Python `s.startswith(pre)`. -/
def pyStartswith (s pre : Str) : Bool :=
  List.isPrefixOf pre s

/-- `os.path.split`: split at the last `/`; the head is stripped of
trailing slashes unless it consists only of slashes. -/
def pathSplit (p : Str) : Str × Str :=
  let tailLen := (p.reverse.takeWhile (· ≠ '/')).length
  let tl := p.drop (p.length - tailLen)
  let hd := p.take (p.length - tailLen)
  if hd = [] then ([], tl)
  else if hd.all (· = '/') then (hd, tl)
  else ((hd.reverse.dropWhile (· = '/')).reverse, tl)

/-- `os.path.join` for the joins performed by the source (the second
component never starts with a slash there). -/
def pathJoin (a b : Str) : Str :=
  if a = [] then b
  else if a.getLast? = some '/' then a ++ b
  else a ++ '/' :: b

example : pathSplit "/zeros/100K".data = ("/zeros".data, "100K".data) := by decide
example : pathSplit "/zeros".data = ("/".data, "zeros".data) := by decide
example : pathSplit "/zeros/".data = ("/zeros".data, []) := by decide
example : pathSplit "xxx/".data = ("xxx".data, []) := by decide
example : pathSplit "/".data = ("/".data, []) := by decide
example : pathSplit "/zeros/.".data = ("/zeros".data, ".".data) := by decide

/-- Xattr name canonicalization (shared by `getxattr`, `setxattr`,
`removexattr`): a name with no dot that does not already start with
`user.` is prefixed with `user.`. -/
def canonName (n : Str) : Str :=
  if ¬ ('.' ∈ n) ∧ ¬ pyStartswith n "user.".data then "user.".data ++ n
  else n

example : canonName "generator".data = "user.generator".data := by decide
example : canonName "user.filler".data = "user.filler".data := by decide
example : canonName "com.apple.x".data = "com.apple.x".data := by decide

/-! ### `FILE_REGEX` and `_calculate_file_size` -/

/-- The named groups of a `FILE_REGEX` match:
`^([0-9]+(\.[0-9])?)([EPTGMKB])(([+|\-])(\d+)([EPTGMKB]))?$`
(the character class `[\+|\-]` of the source also admits a literal
`|` as the operator). -/
structure SizeMatch where
  sizeDigits : Str
  frac : Option Char
  sizeSi : Char
  shift : Option (Char × Str × Char)
  deriving Repr, DecidableEq

def siChars : Str := ['E', 'P', 'T', 'G', 'M', 'K', 'B']

/-- `FILE_REGEX.match(filename)`. -/
def matchFile (name : Str) : Option SizeMatch :=
  let ds := name.takeWhile Char.isDigit
  let rest := name.drop ds.length
  if ds = [] then none
  else
    let (frac, rest2) :=
      match rest with
      | '.' :: d :: r => if d.isDigit then (some d, r) else (none, rest)
      | _ => (none, rest)
    match rest2 with
    | [] => none
    | si :: rest3 =>
        if si ∈ siChars then
          match rest3 with
          | [] => some ⟨ds, frac, si, none⟩
          | op :: rest4 =>
              if op = '+' ∨ op = '|' ∨ op = '-' then
                let ds2 := rest4.takeWhile Char.isDigit
                let rest5 := rest4.drop ds2.length
                if ds2 = [] then none
                else
                  match rest5 with
                  | [si2] =>
                      if si2 ∈ siChars then some ⟨ds, frac, si, some (op, ds2, si2)⟩
                      else none
                  | _ => none
              else none
        else none

def digitsToNat (ds : Str) : Nat :=
  ds.foldl (fun acc c => acc * 10 + (c.toNat - '0'.toNat)) 0

/-- `SizefsFuse.sizes` (decimal SI multipliers, `ONE_K = 1000`). -/
def siMult : Char → Nat
  | 'B' => 1
  | 'K' => 1000
  | 'M' => 1000 ^ 2
  | 'G' => 1000 ^ 3
  | 'T' => 1000 ^ 4
  | 'P' => 1000 ^ 5
  | 'E' => 1000 ^ 6
  | _ => 0

/-- `_calculate_file_size`: `int(float(size) * unit)`, the optional
signed shift, and the clamp of negative results to 0.  The fractional
part is computed with exact rational truncation; the source's binary
floating point agrees on every size exercised in this development.
An operator that is neither `-` nor `+` (the `|` admitted by the
character class) leaves the size unshifted. -/
def calcSize (m : SizeMatch) : Nat :=
  let unit := siMult m.sizeSi
  let base : Nat :=
    match m.frac with
    | none => digitsToNat m.sizeDigits * unit
    | some d => digitsToNat m.sizeDigits * 10 * unit / 10 + (d.toNat - '0'.toNat) * unit / 10
  let sz : Int :=
    match m.shift with
    | none => (base : Int)
    | some (op, ds2, si2) =>
        let shiftSize : Int := ((digitsToNat ds2 * siMult si2 : Nat) : Int)
        if op = '-' then (base : Int) - shiftSize
        else if op = '+' then (base : Int) + shiftSize
        else (base : Int)
  if sz < 0 then 0 else sz.toNat

example : (matchFile "100K".data).map calcSize = some 100000 := by decide
example : (matchFile "4M-1B".data).map calcSize = some 3999999 := by decide
example : (matchFile "4M+1B".data).map calcSize = some 4000001 := by decide
example : (matchFile "5B".data).map calcSize = some 5 := by decide
example : (matchFile "1B-1K".data).map calcSize = some 0 := by decide
example : matchFile "X".data = none := by decide
example : matchFile "1X".data = none := by decide

/-! ### Filesystem operations -/

/-- The `FuseOSError` kinds raised by the source, plus the propagation of
generator-construction failures (`XegerError` / `ValueError` are not
`FuseOSError`s and travel to the caller unconverted) and of read-time
failures. -/
inductive FsErr where
  | EPERM | ENOENT | ENODATA | ENOTEMPTY | ENOTSUP
  | xegerErr (e : XErr)
  | valueErr
  | runErr (e : RunErr)
  deriving Repr, DecidableEq

/-- `_update_mtime`: touch the mtime of a folder or file (a `time()`
call happens only when a branch is taken). -/
def updateMtime (st : FsState) (path : Str) : FsState :=
  match lookupD st.folders path with
  | some a =>
      { st with folders := setD st.folders path { a with stMtime := st.clock },
                clock := st.clock + 1 }
  | none =>
      match lookupD st.files path with
      | some r =>
          { st with
            files := setD st.files path
              { r with attrs := { r.attrs with stMtime := st.clock } },
            clock := st.clock + 1 }
      | none => st

/-- The unknown/unset-generator fallback of `_create_generator`: log,
write `user.generator = 'ones'` back into the path's xattrs, and return
a ones generator. -/
def genFallback (st : FsState) (path : Str) : Except FsErr Generator × FsState :=
  (.ok (.sized ['1']),
   { st with xattrs := setD st.xattrs path (setD ((lookupD st.xattrs path).getD []) "user.generator".data "ones".data) })

/-- The alpha_num pre-sample size, `64 * 1024`. -/
def alphaBufBytes : Nat := 64 * 1024

/-- The `generator == REGEX` arm of `_create_generator`: build an
`XegerGen` from the path's pattern xattrs and the parsed
`user.max_random`. -/
def createGeneratorRegex (st : FsState) (path : Str) (sizeBytes : Nat) (mr : Int) :
    Except FsErr Generator × FsState :=
  match XegerGen.init sizeBytes
      (lookupD ((lookupD st.xattrs path).getD []) "user.filler".data)
      (lookupD ((lookupD st.xattrs path).getD []) "user.prefix".data)
      (lookupD ((lookupD st.xattrs path).getD []) "user.suffix".data)
      (lookupD ((lookupD st.xattrs path).getD []) "user.padder".data)
      mr.toNat st.rng with
  | .error e => (.error (.xegerErr e), st)
  | .ok (gen, rng') => (.ok (.xeger gen), { st with rng := rng' })

/-- The `generator == ALPHA_NUM / ZEROS / ONES / REGEX` dispatch of
`_create_generator` on a present `user.generator` value `g`. -/
def createGeneratorKnown (st : FsState) (path : Str) (sizeBytes : Nat) (g : Str) :
    Except FsErr Generator × FsState :=
  if g = "alpha_num".data then
    let (buf, rng') := buildAlphaBuffer alphaBufBytes st.rng
    (.ok (.alphaNum buf), { st with rng := rng' })
  else if g = "zeros".data then (.ok (.sized ['0']), st)
  else if g = "ones".data then (.ok (.sized ['1']), st)
  else if g = "regex".data then
    match pyInt ((lookupD ((lookupD st.xattrs path).getD []) "user.max_random".data).getD "10".data) with
    | none => (.error .valueErr, st)
    | some mr => createGeneratorRegex st path sizeBytes mr
  else genFallback st path

/-- `_create_generator(path, size_bytes)`: resolve the generator from
the path's xattrs (the source re-reads `self.xattrs[path]` for each
key).  On a `XegerError`/`ValueError` the oracle tape is left as it was
(only the throwaway partially built object consumed draws). -/
def createGenerator (st : FsState) (path : Str) (sizeBytes : Nat) :
    Except FsErr Generator × FsState :=
  match lookupD ((lookupD st.xattrs path).getD []) "user.generator".data with
  | none => genFallback st path
  | some g => createGeneratorKnown st path sizeBytes g

/-- The mtime-plus-xattr update performed by a non-no-op `setxattr`
before any propagation or rebuild. -/
def setxUpdatedState (st : FsState) (path cname value : Str) (pxa : XMap) : FsState :=
  let st1 := updateMtime st path
  { st1 with xattrs := setD st1.xattrs path (setD pxa cname value) }

/-- The generator rebuild at the end of a file-level `setxattr`. -/
def setxRebuild (st2 : FsState) (path : Str) (r : FileRec) :
    (Except FsErr Unit) × FsState :=
  match createGenerator st2 path r.attrs.stSize with
  | (.ok g, st3) => (.ok (), { st3 with files := setD st3.files path { r with generator := g } })
  | (.error e, st3) => (.error e, st3)

/-- One call frame of `setxattr`: `one` is a `setxattr(path, …)` call,
`many` the `for file in files_to_update` propagation loop over the
remaining file paths (each iteration is a nested `setxattr` call in the
source). -/
inductive SetxCall where
  | one (path : Str)
  | many (paths : List Str)

/-- The branch of `setxattr` taken when the name/value pair differs from
what is stored: bump mtime, store, then propagate (folder) or rebuild
(file). -/
def setxOneChanged (rec : SetxCall → FsState → Str → Str → (Except FsErr Unit) × FsState)
    (st : FsState) (path nm value : Str) (pxa : XMap) :
    (Except FsErr Unit) × FsState :=
  if memD (setxUpdatedState st path (canonName nm) value pxa).folders path then
    rec (.many (((setxUpdatedState st path (canonName nm) value pxa).files.map Prod.fst).filter
          (fun f => pyStartswith f path)))
      (setxUpdatedState st path (canonName nm) value pxa) (canonName nm) value
  else
    match lookupD (setxUpdatedState st path (canonName nm) value pxa).files path with
    | some r => setxRebuild (setxUpdatedState st path (canonName nm) value pxa) path r
    | none => (.ok (), setxUpdatedState st path (canonName nm) value pxa)

/-- One step of `setxattr(path, name, value)` with `rec` standing for
the recursive calls: canonicalize the name; unknown path: `ENOENT`;
same value already present: return without touching anything; otherwise
`setxOneChanged`.  A `many` frame runs the remaining propagation
targets, aborting on the first raised error. -/
def setxStep (rec : SetxCall → FsState → Str → Str → (Except FsErr Unit) × FsState) :
    SetxCall → FsState → Str → Str → (Except FsErr Unit) × FsState
  | .one path, st, nm, value =>
      match lookupD st.xattrs path with
      | none => (.error .ENOENT, st)
      | some pxa =>
          if lookupD pxa (canonName nm) = some value then (.ok (), st)
          else setxOneChanged rec st path nm value pxa
  | .many [], st, _, _ => (.ok (), st)
  | .many (f :: fs), st, nm, value =>
      match rec (.one f) st nm value with
      | (.ok _, st1) => rec (.many fs) st1 nm value
      | (e, st1) => (e, st1)

/-- The fueled fixpoint of `setxStep`; the source's recursion depth is
bounded by the number of files, far below the fuel used. -/
def setxF (fuelN : Nat) : SetxCall → FsState → Str → Str → (Except FsErr Unit) × FsState :=
  Nat.rec (motive := fun _ => SetxCall → FsState → Str → Str → (Except FsErr Unit) × FsState)
    (fun _ st _ _ => (.error .ENOENT, st)) (fun _ ih => setxStep ih) fuelN

def setxFuel : Nat := 1000000

def SizefsFuse.setxattr (st : FsState) (path name value : Str) :
    (Except FsErr Unit) × FsState :=
  setxF setxFuel (.one path) st name value

/-- One inherited-xattr copy step of `create`: forward an earlier
error, skip a value the folder does not carry, otherwise perform a real
`setxattr` call on the fresh path. -/
def copyXattr (path key : Str) (v? : Option Str) (acc : (Except FsErr Unit) × FsState) :
    (Except FsErr Unit) × FsState :=
  match acc with
  | (.error e, st) => (.error e, st)
  | (.ok _, st) =>
      match v? with
      | none => (.ok (), st)
      | some v => SizefsFuse.setxattr st path key v

/-- The six inherited-xattr copies `create` performs on the fresh path,
reading the containing folder's map `fxa` (`max_random` is always set,
with default `'10'`). -/
def copyFolderXattrs (path : Str) (fxa : XMap) (st2 : FsState) :
    (Except FsErr Unit) × FsState :=
  copyXattr path "user.max_random".data
      (some ((lookupD fxa "user.max_random".data).getD "10".data))
    (copyXattr path "user.padder".data (lookupD fxa "user.padder".data)
      (copyXattr path "user.suffix".data (lookupD fxa "user.suffix".data)
        (copyXattr path "user.prefix".data (lookupD fxa "user.prefix".data)
          (copyXattr path "user.filler".data (lookupD fxa "user.filler".data)
            (copyXattr path "user.generator".data (lookupD fxa "user.generator".data)
              (.ok (), st2))))))

/-- `create(path, mode)` (the mode is ignored by the source): parent
must be a known folder and the basename must match `FILE_REGEX`; the
recognized xattrs are copied down from the folder through real
`setxattr` calls, the generator is built, and a fresh fd is returned. -/
def SizefsFuse.create (st0 : FsState) (path : Str) : (Except FsErr Nat) × FsState :=
  let (folder, filename) := pathSplit path
  if memD st0.folders folder then
    match matchFile filename with
    | none => (.error .EPERM, st0)
    | some m =>
        let sizeBytes := calcSize m
        let a : Attrs :=
          ⟨regMode, 1, sizeBytes, st0.clock, st0.clock + 1, st0.clock + 2⟩
        let st1 := { st0 with clock := st0.clock + 3 }
        let fxa := (lookupD st1.xattrs folder).getD []
        let st2 := { st1 with xattrs := setD st1.xattrs path [] }
        match copyFolderXattrs path fxa st2 with
        | (.error e, st) => (.error e, st)
        | (.ok _, st3) =>
            match createGenerator st3 path sizeBytes with
            | (.error e, st4) => (.error e, st4)
            | (.ok g, st4) =>
                let st5 := { st4 with files := setD st4.files path ⟨a, g⟩ }
                (.ok (st5.fd + 1), { st5 with fd := st5.fd + 1 })
  else (.error .EPERM, st0)

/-- The file-found branch of `read(path, size, offset)`: clamp the end
to the file size, delegate to the generator (whose mutated state is
stored back), and surface generator failures. -/
def readFile (st : FsState) (path : Str) (r : FileRec) (size offset : Nat) :
    (Except FsErr Str) × FsState :=
  let L := r.attrs.stSize
  if (offset : Int) > (L : Int) - 1 then (.ok [], st)
  else
    let endC : Int := min ((offset : Int) + (size : Int) - 1) ((L : Int) - 1)
    let (res, g') := r.generator.read (offset : Int) endC
    let st' := { st with files := setD st.files path { r with generator := g' } }
    match res with
    | .ok s => (.ok s, st')
    | .error e => (.error (.runErr e), st')

/-- `read(path, size, offset, fh)`: an unknown path is lazily created
(the source then recurses; after a successful create the path is a file,
so the recursion is the file-found branch). -/
def SizefsFuse.read (st : FsState) (path : Str) (size offset : Nat) :
    (Except FsErr Str) × FsState :=
  match lookupD st.files path with
  | some r => readFile st path r size offset
  | none =>
      match SizefsFuse.create st path with
      | (.error e, st') => (.error e, st')
      | (.ok _, st') =>
          match lookupD st'.files path with
          | some r => readFile st' path r size offset
          | none => (.error .ENOENT, st')   -- unreachable: create installed the file

/-- `getattr(path, fh)`: known folders and files answer directly; `.`
and `..` resolve against the (grand)parent folder; everything else under
a non-root parent is lazily created exactly as `create` would, with
`EPERM` translated to `ENOENT` (the source then recurses; after a
successful create the path is a file). -/
def SizefsFuse.getattr (st : FsState) (path : Str) : (Except FsErr Attrs) × FsState :=
  match lookupD st.folders path with
  | some a => (.ok a, st)
  | none =>
  match lookupD st.files path with
  | some r => (.ok r.attrs, st)
  | none =>
      let (folder, filename) := pathSplit path
      if filename = ['.'] then
        match lookupD st.folders folder with
        | some a => (.ok a, st)
        | none => (.error .ENOENT, st)
      else if filename = ['.', '.'] then
        let (parentFolder, _) := pathSplit folder
        match lookupD st.folders parentFolder with
        | some a => (.ok a, st)
        | none => (.error .ENOENT, st)
      else if folder = ['/'] then (.error .ENOENT, st)
      else
        match SizefsFuse.create st path with
        | (.ok _, st') =>
            (match lookupD st'.folders path with
             | some a => (.ok a, st')
             | none =>
               match lookupD st'.files path with
               | some r => (.ok r.attrs, st')
               | none => (.error .ENOENT, st'))   -- unreachable: create installed the file
        | (.error e, st') =>
            if e = .EPERM then (.error .ENOENT, st') else (.error e, st')

/-- `open(path, flags)`: a fresh fd for a known file, `ENOENT`
otherwise. -/
def SizefsFuse.open (st : FsState) (path : Str) : (Except FsErr Nat) × FsState :=
  if memD st.files path then (.ok (st.fd + 1), { st with fd := st.fd + 1 })
  else (.error .ENOENT, st)

/-- `getxattr(path, name)`: canonicalize, look up; a missing name gives
`ENOTSUP` under `com.apple.` and `ENODATA` otherwise; an unknown path
falls off the end of the source function and returns `None`. -/
def SizefsFuse.getxattr (st : FsState) (path name : Str) :
    (Except FsErr (Option Str)) × FsState :=
  let cname := canonName name
  match lookupD st.xattrs path with
  | some pxa =>
      match lookupD pxa cname with
      | some v => (.ok (some v), st)
      | none =>
          if pyStartswith cname "com.apple.".data then (.error .ENOTSUP, st)
          else (.error .ENODATA, st)
  | none => (.ok none, st)

/-- `mkdir(path, mode)`: only under root; installs empty attrs (three
`time()` calls), a `user.generator = 'ones'` xattr, and bumps root's
link count. -/
def SizefsFuse.mkdir (st : FsState) (path : Str) : (Except FsErr Unit) × FsState :=
  let (parent, _) := pathSplit path
  if parent ≠ ['/'] then (.error .EPERM, st)
  else
    let a : Attrs := ⟨dirMode, 2, 0, st.clock, st.clock + 1, st.clock + 2⟩
    let st1 := { st with clock := st.clock + 3, folders := setD st.folders path a }
    let st2 :=
      { st1 with xattrs := setD st1.xattrs path [("user.generator".data, "ones".data)] }
    let st3 :=
      match lookupD st2.folders ['/'] with
      | some ra =>
          { st2 with folders := setD st2.folders ['/'] { ra with stNlink := ra.stNlink + 1 } }
      | none => st2   -- KeyError in the source; root is always present
    (.ok (), st3)

/-- `rename(old, new)`: a folder move pops the folder, moves every
contained file to the new path, and then — `old` being gone from both
maps — falls through to the final `raise FuseOSError(ENOENT)`; a file
raises `EPERM`; anything else `ENOENT`. -/
def SizefsFuse.rename (st : FsState) (old new : Str) : (Except FsErr Unit) × FsState :=
  if memD st.folders old then
    if memD st.folders new then (.error .EPERM, st)
    else
      let a := (lookupD st.folders old).getD default
      let folders' := setD (eraseD st.folders old) new a
      let keep := st.files.filter (fun p => (pathSplit p.1).1 ≠ old)
      let moved := (st.files.filter (fun p => (pathSplit p.1).1 = old)).map
          (fun p => (pathJoin new (pathSplit p.1).2, p.2))
      let st1 := { st with folders := folders', files := keep ++ moved }
      if memD st1.files old then (.error .EPERM, st1)
      else (.error .ENOENT, st1)
  else if memD st.files old then (.error .EPERM, st)
  else (.error .ENOENT, st)

/-- The root-only state set up by the first lines of
`SizefsFuse.__init__` (before the seed directories are added): root
attrs from a single `time()` call and an empty root xattr dict. -/
def rootState : FsState :=
  { folders := [(['/'], ⟨dirMode, 0, 0, 0, 0, 0⟩)],
    files := [], xattrs := [(['/'], [])], fd := 0, clock := 1, rng := [] }

/-- State used by the repository's `test_sfs_fuse` scenario: a fresh
`/regex1` folder configured for regex generation with filler
`tests`. -/
def stRegex1 : FsState :=
  let s1 := (SizefsFuse.mkdir rootState "/regex1".data).2
  let s2 := (SizefsFuse.setxattr s1 "/regex1".data "generator".data "regex".data).2
  (SizefsFuse.setxattr s2 "/regex1".data "filler".data "tests".data).2

-- Validation against `test_sfs_fuse` (`test_sizefsFuse.py`).
example :
    (SizefsFuse.read stRegex1 "/regex1/5B".data 5 0).1 = .ok "tests".data := by decide
example :
    ((SizefsFuse.read ((SizefsFuse.read stRegex1 "/regex1/5B".data 5 0).2)
        "/regex1/5B".data 5 0).1) = .ok "tests".data := by decide
example :
    (SizefsFuse.read
        ((SizefsFuse.setxattr (SizefsFuse.read stRegex1 "/regex1/5B".data 5 0).2
            "/regex1/5B".data "filler".data "a{2}b{2}c".data).2)
        "/regex1/5B".data 5 0).1 = .ok "aabbc".data := by decide

/-- State with a `/10B` file created directly under root (as in
`test_sfs_fuse_create` / `test_sfs_fuse_read`: `create` checks the
parent against `self.folders`, which contains `/`). -/
def stTenB : FsState := (SizefsFuse.create rootState "/10B".data).2

example : (lookupD stTenB.files "/10B".data).map (fun r => r.attrs.stSize) = some 10 := by
  decide
example : (SizefsFuse.read stTenB "/10B".data 10 0).1 = .ok "1111111111".data := by decide
example : (SizefsFuse.read stTenB "/10B".data 10 10).1 = .ok [] := by decide

/-! ## Claims -/

/-- Claim C2: the spec says a read never returns more than
`max(0, L - max(start, 0))` bytes because prefix and suffix are
truncated against the file boundary at read time — including
configurations with `len(prefix) + len(suffix) > L`.  In fact no
truncation of the materialized prefix happens: with `L = 2` and prefix
`abcdef`, `read(0, 1)` puts 6 bytes of prefix into the content, the
filler loop never runs, and the overrun branch dereferences the unbound
local `new_items` — the read crashes instead of returning a truncated
string. -/
theorem xeger_overlong_prefix_read_crashes :
    (mkXeger 2 none (some "abcdef") none none 10).map (fun g => (g.read 0 1).1) =
      .ok (.error .unboundNewItems) := by decide

/-- Claim C3: the spec says `read(len(S), L - len(S))` returns the
configured suffix byte-for-byte for every suffix length including
`len(S) = 1`.  The suffix branch triggers only when
`end > size - suffix_length`, which for `S = 1` and `end = L - 1` is the
false comparison `L - 1 > L - 1`; the read of the last byte is generated
from the filler instead.  With `L = 4`, filler `a`, suffix `z`,
`read(3, 3)` returns `a`, not `z`. -/
theorem xeger_single_byte_suffix_not_returned :
    (mkXeger 4 (some "a") none (some "z") none 10).map (fun g => (g.read 3 3).1) =
      .ok (.ok "a".data) ∧ "a".data ≠ "z".data := by decide

/-- Claim C4: the spec says a read starting at `end_last_read + 1`
begins with the stashed remainder.  The source assigns
`self._end_last_read = end` *before* comparing `start` against
`self._end_last_read + 1`, so the comparison is against the current
read's own end and the remainder is never prepended: after
`read(0, 15)` of a size-1024 generator with filler `a(bc){5}d` the
remainder is `cbcbcbcd`, yet `read(16, 31)` returns a fresh emission
`abcbcbcbcbcdabcb` that does not begin with it. -/
theorem xeger_sequential_read_ignores_remainder :
    (mkXeger 1024 (some "a(bc){5}d") none none none 10).map (fun g =>
        let p1 := g.read 0 15
        let p2 := p1.2.read 16 31
        (p1.1, p1.2.remainder, p2.1)) =
      .ok (.ok "abcbcbcbcbcdabcb".data, "cbcbcbcd".data,
           .ok "abcbcbcbcbcdabcb".data) ∧
    pyStartswith "abcbcbcbcbcdabcb".data "cbcbcbcd".data = false := by decide

/-- State with a single empty directory `/dir1` (as in the repository's
own `test_sfs_fuse_rename`, which calls `rename` without expecting an
exception). -/
def stDir1 : FsState := (SizefsFuse.mkdir rootState "/dir1".data).2

/-- State with `/dir1` containing a file (as in
`test_sfs_fuse_rename_with_files`). -/
def stDir1File : FsState := (SizefsFuse.create stDir1 "/dir1/10B".data).2

/-- Claim C6: renaming an existing directory is supposed to complete
without raising.  The folder and its files are indeed moved, but the
function has no `return` after the move, falls through past the two
trailing checks, and always raises `ENOENT`.  (The repository's own
`test_sfs_fuse_rename` calls `rename('/dir1', '/dir2')` outside any
`pytest.raises` block.) -/
theorem rename_directory_moves_but_raises :
    (SizefsFuse.rename stDir1 "/dir1".data "/dir2".data).1 = .error .ENOENT ∧
    memD (SizefsFuse.rename stDir1 "/dir1".data "/dir2".data).2.folders "/dir2".data = true ∧
    memD (SizefsFuse.rename stDir1 "/dir1".data "/dir2".data).2.folders "/dir1".data = false ∧
    (SizefsFuse.rename stDir1File "/dir1".data "/dir2".data).1 = .error .ENOENT ∧
    memD (SizefsFuse.rename stDir1File "/dir1".data "/dir2".data).2.files "/dir2/10B".data
      = true := by decide

/-- Claim C7: the spec says a `*` multiplier samples repeat counts in
`[0, max_random]` for the supplied `max_random`.  `XegerExpression`
constructs `XegerMultiplier(regex)` without forwarding its stored
`max_random`, so the multiplier always uses the constructor default 10:
parsing `a*` with `max_random = 2` allocates a `FastRandom` with bounds
`(0, 10)`, and with an oracle draw of 7 the first sampled repeat count
is 7, outside `[0, 2]`. -/
theorem star_multiplier_ignores_supplied_max_random :
    (Xeger.init "a*".data 2 [] [7]).map (fun t =>
        (t.2.1.map (fun fr => (fr.lo, fr.hi)), ((t.2.1.getD 0 default).rand).1)) =
      .ok ([(0, 10)], 7) ∧ ¬ (7 ≤ 2) := by decide

/-- Claim C8 (counterexample): with `filler=""` and `padder=""` supplied
together, the `elif` chain only resets the filler; the padder is parsed
from the empty string and its emission appends nothing, instead of the
claimed fallback to the literal pattern `"0"` (whose emission appends
one `0`). -/
theorem empty_filler_and_padder_leaves_padder_empty :
    (XegerGen.init 64 (some []) none none (some []) 10 []).map (fun p =>
        ((genTop p.1.filler ⟨[], 0, p.1.cells⟩).map (fun q => q.2.contentRev),
         (genTop p.1.padder ⟨[], 0, p.1.cells⟩).map (fun q => q.2.contentRev))) =
      .ok (some [['0']], some []) := by decide

/-- States for the claim C5 counterexample: `/d` with one child file
`/d/5B`; the directory is given `k = w`, the child is then given
`k = x` directly, and the directory-level `setxattr('/d', k, w)` is
repeated. -/
def c5sA : FsState := (SizefsFuse.mkdir rootState "/d".data).2
def c5sB : FsState := (SizefsFuse.create c5sA "/d/5B".data).2
def c5sC : FsState := (SizefsFuse.setxattr c5sB "/d".data "k".data "w".data).2
def c5sD : FsState := (SizefsFuse.setxattr c5sC "/d/5B".data "k".data "x".data).2
def c5sE : (Except FsErr Unit) × FsState :=
  SizefsFuse.setxattr c5sD "/d".data "k".data "w".data

/-- Claim C5 (counterexample): `setxattr('/d', 'k', 'w')` on an existing
directory whose map already holds `k = w` returns as a no-op before the
propagation loop, so the direct child `/d/5B` keeps its divergent value
`x`: afterwards `getxattr('/d/5B', 'k') = 'x' ≠ 'w'`, and the child's
generator was not rebuilt either. -/
theorem setxattr_dir_noop_skips_children :
    memD c5sD.folders "/d".data = true ∧
    memD c5sD.files "/d/5B".data = true ∧
    pathSplit "/d/5B".data = ("/d".data, "5B".data) ∧
    c5sE.1 = .ok () ∧
    c5sE.2.xattrs = c5sD.xattrs ∧
    (SizefsFuse.getxattr c5sE.2 "/d/5B".data "k".data).1 = .ok (some "x".data) ∧
    "x".data ≠ "w".data := by decide

/-- State with just the `/zeros` seed directory, for the claim C10
counterexample. -/
def stZeros : FsState := (SizefsFuse.mkdir rootState "/zeros".data).2

/-- Claim C10 (counterexample): `/zeros/.` is absent from both maps and
its basename `.` does not match the size grammar, so by the claim
`getattr` should raise not-found — but the source special-cases a `.`
basename and returns the parent directory's attributes. -/
theorem getattr_dot_of_known_folder_not_enoent :
    memD stZeros.folders "/zeros/.".data = false ∧
    memD stZeros.files "/zeros/.".data = false ∧
    matchFile ".".data = none ∧
    (SizefsFuse.getattr stZeros "/zeros/.".data).1 =
      .ok ⟨dirMode, 2, 0, 1, 2, 3⟩ := by decide

/-- Claim C8 (amended): only the first empty-string argument in the
order filler, padder, prefix, suffix is reset to its default.  With only
the padder empty it is defaulted to the `"0"` pattern; with filler and
padder both empty the filler is defaulted but the padder is parsed from
the empty string into a pattern with no expressions. -/
theorem xegergen_empty_arg_chain (size mr : Nat) (rng : Rng) :
    XegerGen.init size none none none (some []) mr rng =
      .ok ({ size := size, endLastRead := 0, remainder := [], remLen := 0,
             filler := .single (.plain (.seq ['0'])),
             padder := .single (.plain (.seq ['0'])),
             pfx := [], pfxLen := 0, sfx := [], sfxLen := 0, cells := [] }, rng) ∧
    XegerGen.init size (some []) none none (some []) mr rng =
      .ok ({ size := size, endLastRead := 0, remainder := [], remLen := 0,
             filler := .single (.plain (.seq ['0'])),
             padder := .many [],
             pfx := [], pfxLen := 0, sfx := [], sfxLen := 0, cells := [] }, rng) :=
  ⟨rfl, rfl⟩

/-- Unfolding of the fueled `setxattr` fixpoint. -/
theorem setxF_succ (n : Nat) : setxF (n + 1) = setxStep (setxF n) := rfl

/-- Claim C9: a `setxattr` whose canonicalized name is already present
with the same value is a complete no-op: the call returns before
touching the mtime, the xattr maps, the generators, or any other state,
so the resulting state is exactly the input state. -/
theorem setxattr_idempotent_noop (st : FsState) (p k v : Str) (pxa : XMap)
    (hx : lookupD st.xattrs p = some pxa)
    (hv : lookupD pxa (canonName k) = some v) :
    SizefsFuse.setxattr st p k v = (.ok (), st) := by
  have hfuel : setxFuel = 999999 + 1 := by norm_num [setxFuel]
  rw [SizefsFuse.setxattr, hfuel, setxF_succ, setxStep, hx]
  simp [hv]

/-- Concrete witness for `setxattr_idempotent_noop`: repeating
`setxattr('/d', 'k', 'w')` on `c5sC` (where `/d` already holds
`user.k = w`) returns the state unchanged. -/
theorem setxattr_idempotent_noop_witness :
    SizefsFuse.setxattr c5sC "/d".data "k".data "w".data = (.ok (), c5sC) :=
  setxattr_idempotent_noop c5sC "/d".data "k".data "w".data
    ((lookupD c5sC.xattrs "/d".data).getD [])
    (by decide) (by decide)

/-- Claim C1: the filesystem-level `read(path, sz, off)` is supposed to
return exactly `sz` bytes for every in-range read and every generator
kind.  For the alpha_num kind it returns one byte fewer:
`SizeFSAlphaNumGen.read` computes `fill(end - start)` where its sibling
implementations use `end - start + 1`, so `read(path, 5, 0)` on an
alpha_num file of size 100000 yields 4 bytes. -/
theorem fuse_alpha_num_read_returns_one_byte_short
    (st : FsState) (path : Str) (r : FileRec) (chars : Str)
    (hfile : lookupD st.files path = some r)
    (hgen : r.generator = .alphaNum chars)
    (hchars : chars.length = 64 * 1024)
    (hsize : r.attrs.stSize = 100000) :
    ∃ s, (SizefsFuse.read st path 5 0).1 = .ok s ∧ s.length = 4 := by
  have hne : ¬ chars.length = 0 := by rw [hchars]; norm_num
  have hgt : ¬ (4 > chars.length) := by rw [hchars]; norm_num
  have hfill : SizeFSAlphaNumGen.read chars 0 4 = chars.take 4 := by
    have h1 : SizeFSAlphaNumGen.read chars 0 4 = SizeFSGen.fill chars 4 := by
      simp [SizeFSAlphaNumGen.read]
    have h2 : SizeFSGen.fill chars 4 = SizeFSGen.fillAux chars 4 4 := by
      rw [SizeFSGen.fill, if_neg hne]
    have h3 : SizeFSGen.fillAux chars 4 4 = chars.take 4 := by
      show (if 4 > chars.length then
          chars ++ SizeFSGen.fillAux chars 3 (4 - chars.length)
        else chars.take 4) = chars.take 4
      rw [if_neg hgt]
    rw [h1, h2, h3]
  refine ⟨chars.take 4, ?_, ?_⟩
  · simp only [SizefsFuse.read, hfile, readFile, hsize, hgen, Generator.read]
    norm_num
    exact hfill
  · rw [List.length_take, hchars]
    omega

/-- Concrete state for the claim C1 witness: a single alpha_num file of
size 100000 with its 64 KiB pre-sampled buffer. -/
def alphaWitnessSt : FsState :=
  { folders := [], files :=
      [("/alpha_num/100K".data,
        ⟨⟨regMode, 1, 100000, 0, 0, 0⟩, .alphaNum (List.replicate (64 * 1024) 'A')⟩)],
    xattrs := [], fd := 0, clock := 0, rng := [] }

theorem fuse_alpha_num_read_returns_one_byte_short_witness :
    ∃ s, (SizefsFuse.read alphaWitnessSt "/alpha_num/100K".data 5 0).1 = .ok s ∧
      s.length = 4 :=
  fuse_alpha_num_read_returns_one_byte_short alphaWitnessSt "/alpha_num/100K".data
    ⟨⟨regMode, 1, 100000, 0, 0, 0⟩, .alphaNum (List.replicate (64 * 1024) 'A')⟩
    (List.replicate (64 * 1024) 'A')
    (by rfl)
    rfl
    (by rw [List.length_replicate])
    rfl

/-! ### Support lemmas for the xattr-propagation proof -/

theorem lookupD_setD_self {α : Type} (m : List (Str × α)) (k : Str) (v : α) :
    lookupD (setD m k v) k = some v := by
  induction m with
  | nil => simp [setD, lookupD]
  | cons hd tl ih =>
      obtain ⟨k', v'⟩ := hd
      by_cases h : k' = k
      · simp [setD, h, lookupD]
      · simp [setD, h, lookupD, ih]

theorem lookupD_setD_ne {α : Type} (m : List (Str × α)) (k : Str) (v : α)
    (q : Str) (h : q ≠ k) : lookupD (setD m k v) q = lookupD m q := by
  induction m with
  | nil => simp [setD, lookupD, Ne.symm h]
  | cons hd tl ih =>
      obtain ⟨k', v'⟩ := hd
      by_cases h2 : k' = k
      · subst h2
        simp [setD, lookupD, Ne.symm h]
      · by_cases h3 : k' = q
        · simp [setD, h2, lookupD, h3, h]
        · simp [setD, h2, lookupD, h3, ih]

theorem memD_setD_self {α : Type} (m : List (Str × α)) (k : Str) (v : α) :
    memD (setD m k v) k = true := by
  simp [memD, lookupD_setD_self]

theorem memD_mem_keys {α : Type} (m : List (Str × α)) (k : Str)
    (h : memD m k = true) : k ∈ m.map Prod.fst := by
  induction m with
  | nil => simp [memD, lookupD] at h
  | cons hd tl ih =>
      obtain ⟨k', v'⟩ := hd
      by_cases h2 : k' = k
      · rw [List.map_cons, h2]
        exact List.mem_cons_self _ _
      · simp only [memD, lookupD, if_neg h2] at h
        rw [List.map_cons]
        exact List.mem_cons_of_mem _ (ih h)

/-- `canonName` is idempotent (needed because the propagation loop
passes the already-canonical name into recursive `setxattr` calls). -/
theorem canonName_idem (k : Str) : canonName (canonName k) = canonName k := by
  have hdot : '.' ∈ "user.".data ++ k := by
    rw [List.mem_append]
    left
    decide
  by_cases hc : ¬ ('.' ∈ k) ∧ ¬ pyStartswith k "user.".data
  · have h1 : canonName k = "user.".data ++ k := by rw [canonName, if_pos hc]
    rw [h1, canonName, if_neg (fun h2 => h2.1 hdot)]
  · have h1 : canonName k = k := by rw [canonName, if_neg hc]
    rw [h1, h1]

theorem updateMtime_xattrs (st : FsState) (p : Str) :
    (updateMtime st p).xattrs = st.xattrs := by
  unfold updateMtime
  split
  · rfl
  · split
    · rfl
    · rfl

theorem updateMtime_files_of_folder (st : FsState) (p : Str)
    (h : memD st.folders p = true) : (updateMtime st p).files = st.files := by
  unfold updateMtime
  split
  · rfl
  · rename_i heq
    rw [memD, heq] at h
    simp at h

theorem updateMtime_folders_mem (st : FsState) (p : Str)
    (h : memD st.folders p = true) : memD (updateMtime st p).folders p = true := by
  unfold updateMtime
  split
  · simpa [memD] using memD_setD_self st.folders p _
  · rename_i heq
    rw [memD, heq] at h
    simp at h

/-- The value of one xattr of one path in a state. -/
def xval (st : FsState) (f cname : Str) : Option Str :=
  (lookupD st.xattrs f).bind (fun m => lookupD m cname)

theorem getxattr_of_xval (st : FsState) (f k v : Str)
    (h : xval st f (canonName k) = some v) :
    (SizefsFuse.getxattr st f k).1 = .ok (some v) := by
  unfold SizefsFuse.getxattr
  cases hm : lookupD st.xattrs f with
  | none =>
      rw [xval, hm, Option.none_bind] at h
      exact Option.noConfusion h
  | some m =>
      rw [xval, hm, Option.some_bind] at h
      simp only [hm, h]

/-- `_create_generator` either leaves the xattr maps untouched, or (for
an unset or unrecognized `user.generator`) rewrites the path's
`user.generator` to `ones` as `genFallback` does. -/
theorem createGenerator_xattrs_cases (st : FsState) (p : Str) (sizeB : Nat) :
    (createGenerator st p sizeB).2.xattrs = st.xattrs ∨
    ((createGenerator st p sizeB).2 = (genFallback st p).2 ∧
      ∀ w, lookupD ((lookupD st.xattrs p).getD []) "user.generator".data = some w →
        w ≠ "zeros".data ∧ w ≠ "ones".data ∧ w ≠ "alpha_num".data ∧ w ≠ "regex".data) := by
  unfold createGenerator
  cases hg : lookupD ((lookupD st.xattrs p).getD []) "user.generator".data with
  | none =>
      right
      refine ⟨rfl, ?_⟩
      intro w hw
      exact Option.noConfusion hw
  | some g =>
      have hred : (match (some g : Option Str) with
          | none => genFallback st p
          | some g2 => createGeneratorKnown st p sizeB g2) =
          createGeneratorKnown st p sizeB g := rfl
      rw [hred]
      unfold createGeneratorKnown
      rcases hb : buildAlphaBuffer alphaBufBytes st.rng with ⟨buf, rng2⟩
      by_cases h1 : g = "alpha_num".data
      · left
        rw [if_pos h1]
      · rw [if_neg h1]
        by_cases h2 : g = "zeros".data
        · left; rw [if_pos h2]
        · rw [if_neg h2]
          by_cases h3 : g = "ones".data
          · left; rw [if_pos h3]
          · rw [if_neg h3]
            by_cases h4 : g = "regex".data
            · rw [if_pos h4]
              left
              cases pyInt ((lookupD ((lookupD st.xattrs p).getD []) "user.max_random".data).getD "10".data) with
              | none => rfl
              | some mr =>
                  have hred2 : (match (some mr : Option Int) with
                      | none => ((.error .valueErr, st) : Except FsErr Generator × FsState)
                      | some mr2 => createGeneratorRegex st p sizeB mr2) =
                      createGeneratorRegex st p sizeB mr := rfl
                  rw [hred2]
                  unfold createGeneratorRegex
                  cases hinit : XegerGen.init sizeB
                      (lookupD ((lookupD st.xattrs p).getD []) "user.filler".data)
                      (lookupD ((lookupD st.xattrs p).getD []) "user.prefix".data)
                      (lookupD ((lookupD st.xattrs p).getD []) "user.suffix".data)
                      (lookupD ((lookupD st.xattrs p).getD []) "user.padder".data)
                      mr.toNat st.rng with
                  | error e => rfl
                  | ok pr =>
                      obtain ⟨gen, rng3⟩ := pr
                      rfl
            · rw [if_neg h4]
              right
              refine ⟨rfl, ?_⟩
              intro w hw
              rw [Option.some.injEq] at hw
              subst hw
              exact ⟨h2, h3, h1, h4⟩

/-- The recognized generator kinds of the claim C5 amendment. -/
def recognizedGen (v : Str) : Prop :=
  v = "zeros".data ∨ v = "ones".data ∨ v = "alpha_num".data ∨ v = "regex".data

/-- A generator rebuild preserves any xattr binding, provided the
binding is not `user.generator` mapped to an unrecognized value (the
fallback rewrites exactly that binding to `ones`). -/
theorem createGenerator_preserves_xval (st : FsState) (p : Str) (sizeB : Nat)
    (f cname v : Str)
    (hng : cname ≠ "user.generator".data ∨ recognizedGen v)
    (hv : xval st f cname = some v) :
    xval (createGenerator st p sizeB).2 f cname = some v := by
  rcases createGenerator_xattrs_cases st p sizeB with hcase | ⟨hcase, hunrec⟩
  · rw [xval, hcase]
    exact hv
  · rw [xval, hcase]
    show ((lookupD (genFallback st p).2.xattrs f).bind fun m => lookupD m cname) = some v
    have hgf : (genFallback st p).2.xattrs =
        setD st.xattrs p (setD ((lookupD st.xattrs p).getD []) "user.generator".data "ones".data) := rfl
    rw [hgf]
    by_cases hf : f = p
    · subst hf
      cases hm : lookupD st.xattrs f with
      | none =>
          rw [xval, hm, Option.none_bind] at hv
          exact Option.noConfusion hv
      | some m =>
          rw [xval, hm, Option.some_bind] at hv
          rw [lookupD_setD_self, Option.some_bind]
          by_cases hcn : cname = "user.generator".data
          · rcases hng with hng1 | hng2
            · exact absurd hcn hng1
            · subst hcn
              have := hunrec v (by rw [hm]; exact hv)
              rcases hng2 with h | h | h | h
              · exact absurd h this.1
              · exact absurd h this.2.1
              · exact absurd h this.2.2.1
              · exact absurd h this.2.2.2
          · show lookupD (setD ((some m).getD []) "user.generator".data "ones".data) cname = some v
            rw [lookupD_setD_ne _ _ _ _ hcn]
            exact hv
    · rw [lookupD_setD_ne _ _ _ _ hf]
      exact hv

theorem setxUpd_xattrs (st : FsState) (p c v : Str) (pxa : XMap) :
    (setxUpdatedState st p c v pxa).xattrs = setD st.xattrs p (setD pxa c v) := by
  have h : (setxUpdatedState st p c v pxa).xattrs =
      setD (updateMtime st p).xattrs p (setD pxa c v) := rfl
  rw [h, updateMtime_xattrs]

theorem setxUpd_files_of_folder (st : FsState) (p c v : Str) (pxa : XMap)
    (h : memD st.folders p = true) :
    (setxUpdatedState st p c v pxa).files = st.files := by
  have h2 : (setxUpdatedState st p c v pxa).files = (updateMtime st p).files := rfl
  rw [h2, updateMtime_files_of_folder st p h]

theorem setxUpd_folders_mem (st : FsState) (p c v : Str) (pxa : XMap)
    (h : memD st.folders p = true) :
    memD (setxUpdatedState st p c v pxa).folders p = true := by
  have h2 : (setxUpdatedState st p c v pxa).folders = (updateMtime st p).folders := rfl
  rw [h2]
  exact updateMtime_folders_mem st p h

theorem setxUpd_xval_self (st : FsState) (p c v : Str) (pxa : XMap) :
    xval (setxUpdatedState st p c v pxa) p c = some v := by
  rw [xval, setxUpd_xattrs, lookupD_setD_self, Option.some_bind, lookupD_setD_self]

theorem setxUpd_xval_other (st : FsState) (p c v : Str) (pxa : XMap)
    (f c2 : Str) (hf : f ≠ p) :
    xval (setxUpdatedState st p c v pxa) f c2 = xval st f c2 := by
  rw [xval, setxUpd_xattrs, lookupD_setD_ne _ _ _ _ hf, xval]

theorem setxRebuild_ok_preserves (st2 : FsState) (p : Str) (r : FileRec)
    (u : Unit) (st4 : FsState) (cname v : Str)
    (hng : cname ≠ "user.generator".data ∨ recognizedGen v)
    (hrun : setxRebuild st2 p r = (.ok u, st4))
    (f : Str) (hv : xval st2 f cname = some v) :
    xval st4 f cname = some v := by
  unfold setxRebuild at hrun
  rcases hcg : createGenerator st2 p r.attrs.stSize with ⟨cge, st3⟩
  rw [hcg] at hrun
  cases cge with
  | error e =>
      exact Except.noConfusion (congrArg Prod.fst hrun)
  | ok g =>
      have hst : st4 = { st3 with files := setD st3.files p { r with generator := g } } :=
        (congrArg Prod.snd hrun).symm
      have h3 : xval st3 f cname = some v := by
        have := createGenerator_preserves_xval st2 p r.attrs.stSize f cname v hng hv
        rw [hcg] at this
        exact this
      rw [hst, xval]
      rw [xval] at h3
      exact h3

/-- Invariant propagation for the fueled `setxattr`: if a call returns
ok, any established binding `cname ↦ v` (not defeated by the rebuild
fallback, per `hng`) is preserved; a `one` frame establishes the binding
at its path and — when the path is a directory whose stored value
differed — at every file whose path extends it; a `many` frame
establishes it at every listed path. -/
theorem setxF_ok_inv (cname v : Str)
    (hng : cname ≠ "user.generator".data ∨ recognizedGen v) :
    ∀ (n : Nat) (c : SetxCall) (st : FsState) (nm : Str) (u : Unit) (st' : FsState),
      canonName nm = cname →
      setxF n c st nm v = (.ok u, st') →
      ((∀ f, xval st f cname = some v → xval st' f cname = some v) ∧
       (match c with
        | .one p => xval st' p cname = some v ∧
            (∀ pxa, lookupD st.xattrs p = some pxa →
              lookupD pxa cname ≠ some v →
              memD st.folders p = true →
              ∀ f, memD st.files f = true → pyStartswith f p = true →
                xval st' f cname = some v)
        | .many ps => ∀ f, f ∈ ps → xval st' f cname = some v)) := by
  intro n
  induction n with
  | zero =>
      intro c st nm u st' hnm hrun
      exact Except.noConfusion (congrArg Prod.fst hrun)
  | succ n ih =>
      intro c st nm u st' hnm hrun
      rw [setxF_succ] at hrun
      cases c with
      | one p =>
          simp only [setxStep] at hrun
          simp only [hnm] at hrun
          split at hrun
          · -- lookupD st.xattrs p = none: ENOENT
            exact Except.noConfusion (congrArg Prod.fst hrun)
          · rename_i pxa hx
            split at hrun
            · -- idempotent guard: state unchanged
              rename_i hguard
              have hst : st = st' := congrArg Prod.snd hrun
              subst hst
              refine ⟨fun f hf => hf, ?_, ?_⟩
              · rw [xval, hx, Option.some_bind]
                exact hguard
              · intro pxa0 hx0 hne0 _ _ _ _
                rw [hx] at hx0
                cases hx0
                exact absurd hguard hne0
            · rename_i hguard
              -- changed: setxOneChanged
              unfold setxOneChanged at hrun
              simp only [hnm] at hrun
              split at hrun
              · -- folder branch: propagation
                rename_i hfold
                have hcc : canonName cname = cname := by
                  rw [← hnm, canonName_idem]
                obtain ⟨pres2, est2⟩ := ih (.many _) _ cname u st' hcc hrun
                have hpres1 : ∀ f, xval st f cname = some v →
                    xval (setxUpdatedState st p cname v pxa) f cname = some v := by
                  intro f hf
                  by_cases hfp : f = p
                  · subst hfp
                    rw [xval, hx, Option.some_bind] at hf
                    exact absurd hf hguard
                  · rw [setxUpd_xval_other _ _ _ _ _ _ _ hfp]
                    exact hf
                refine ⟨fun f hf => pres2 f (hpres1 f hf), ?_, ?_⟩
                · exact pres2 p (setxUpd_xval_self st p cname v pxa)
                · intro pxa0 hx0 hne0 hmem0 f hfmem hfpre
                  refine est2 f ?_
                  rw [setxUpd_files_of_folder st p cname v pxa hmem0]
                  exact List.mem_filter.mpr ⟨memD_mem_keys st.files f hfmem, hfpre⟩
              · -- not a folder: rebuild or plain update
                rename_i hfold
                split at hrun
                · rename_i r hfr
                  -- rebuild of a file record
                  have hpres1 : ∀ f, xval st f cname = some v →
                      xval (setxUpdatedState st p cname v pxa) f cname = some v := by
                    intro f hf
                    by_cases hfp : f = p
                    · subst hfp
                      rw [xval, hx, Option.some_bind] at hf
                      exact absurd hf hguard
                    · rw [setxUpd_xval_other _ _ _ _ _ _ _ hfp]
                      exact hf
                  refine ⟨?_, ?_, ?_⟩
                  · intro f hf
                    exact setxRebuild_ok_preserves _ _ _ u st' cname v hng
                      (by rw [← hrun]) f (hpres1 f hf)
                  · exact setxRebuild_ok_preserves _ _ _ u st' cname v hng
                      (by rw [← hrun]) p (setxUpd_xval_self st p cname v pxa)
                  · intro pxa0 hx0 hne0 hmem0 f hfmem hfpre
                    exact absurd (setxUpd_folders_mem st p cname v pxa hmem0) hfold
                · rename_i hfr
                  have hst : setxUpdatedState st p cname v pxa = st' :=
                    congrArg Prod.snd hrun
                  refine ⟨?_, ?_, ?_⟩
                  · intro f hf
                    rw [← hst]
                    by_cases hfp : f = p
                    · subst hfp
                      rw [xval, hx, Option.some_bind] at hf
                      exact absurd hf hguard
                    · rw [setxUpd_xval_other _ _ _ _ _ _ _ hfp]
                      exact hf
                  · rw [← hst]
                    exact setxUpd_xval_self st p cname v pxa
                  · intro pxa0 hx0 hne0 hmem0 f hfmem hfpre
                    exact absurd (setxUpd_folders_mem st p cname v pxa hmem0) hfold
      | many ps =>
          cases ps with
          | nil =>
              simp only [setxStep] at hrun
              have hst : st = st' := congrArg Prod.snd hrun
              subst hst
              exact ⟨fun f hf => hf, fun f hf => absurd hf (List.not_mem_nil f)⟩
          | cons f0 fs =>
              simp only [setxStep] at hrun
              rcases h1 : setxF n (.one f0) st nm v with ⟨r1, st1⟩
              rw [h1] at hrun
              cases r1 with
              | error e =>
                  exact Except.noConfusion (congrArg Prod.fst hrun)
              | ok u1 =>
                  obtain ⟨pres1, est1, _⟩ := ih (.one f0) st nm u1 st1 hnm h1
                  obtain ⟨pres2, est2⟩ := ih (.many fs) st1 nm u st' hnm hrun
                  refine ⟨fun f hf => pres2 f (pres1 f hf), ?_⟩
                  intro g hg
                  rcases List.mem_cons.mp hg with hg1 | hg2
                  · subst hg1
                    exact pres2 g est1
                  · exact est2 g hg2

/-- Claim C5 (amended): after `setxattr(d, k, v)` on an existing
directory `d` whose own xattr map does not already hold the
canonicalized `k` with value `v`, if the call returns ok, then every
file whose path starts with `d` — in particular every direct child —
satisfies `getxattr(f, k) = v` (provided the key is not
`user.generator` with an unrecognized value, which the rebuild fallback
rewrites to `ones`). -/
theorem setxattr_dir_propagates_when_changed
    (st : FsState) (d k v : Str) (u : Unit) (st' : FsState) (pxa : XMap)
    (hng : canonName k ≠ "user.generator".data ∨ recognizedGen v)
    (hx : lookupD st.xattrs d = some pxa)
    (hnn : lookupD pxa (canonName k) ≠ some v)
    (hdir : memD st.folders d = true)
    (hrun : SizefsFuse.setxattr st d k v = (.ok u, st'))
    (f : Str) (hf : memD st.files f = true) (hpre : pyStartswith f d = true) :
    (SizefsFuse.getxattr st' f k).1 = .ok (some v) := by
  obtain ⟨-, -, hprop⟩ :=
    setxF_ok_inv (canonName k) v hng setxFuel (.one d) st k u st' rfl hrun
  exact getxattr_of_xval st' f k v (hprop pxa hx hnn hdir f hf hpre)

/-- Concrete witness for `setxattr_dir_propagates_when_changed`: on the
state of the C5 counterexample, a directory-level set with a fresh value
`z` does reach the child. -/
theorem setxattr_dir_propagates_when_changed_witness :
    (SizefsFuse.getxattr (SizefsFuse.setxattr c5sD "/d".data "k".data "z".data).2
        "/d/5B".data "k".data).1 = .ok (some "z".data) :=
  setxattr_dir_propagates_when_changed c5sD "/d".data "k".data "z".data ()
    (SizefsFuse.setxattr c5sD "/d".data "k".data "z".data).2
    ((lookupD c5sD.xattrs "/d".data).getD [])
    (Or.inl (by decide))
    (by decide) (by decide) (by decide)
    (Prod.ext_iff.mpr ⟨by decide, rfl⟩)
    "/d/5B".data (by decide) (by decide)

theorem updateMtime_folders_none (st : FsState) (p q : Str)
    (h : lookupD st.folders q = none) :
    lookupD (updateMtime st p).folders q = none := by
  unfold updateMtime
  split
  · rename_i a heq
    show lookupD (setD st.folders p _) q = none
    by_cases hqp : q = p
    · subst hqp
      rw [h] at heq
      exact Option.noConfusion heq
    · rw [lookupD_setD_ne _ _ _ _ hqp]
      exact h
  · split
    · exact h
    · exact h

theorem createGenerator_folders (st : FsState) (p : Str) (sizeB : Nat) :
    ((createGenerator st p sizeB).2).folders = st.folders := by
  unfold createGenerator
  split
  · rfl
  · rename_i g
    unfold createGeneratorKnown
    split
    · rcases hb : buildAlphaBuffer alphaBufBytes st.rng with ⟨buf, rng2⟩
      rfl
    · split
      · rfl
      · split
        · rfl
        · split
          · split
            · rfl
            · unfold createGeneratorRegex
              split
              · rfl
              · rfl
          · rfl

theorem setxRebuild_folders (st2 : FsState) (p : Str) (r : FileRec) :
    ((setxRebuild st2 p r).2).folders = st2.folders := by
  unfold setxRebuild
  rcases hcg : createGenerator st2 p r.attrs.stSize with ⟨cge, st3⟩
  have h3 : st3.folders = st2.folders := by
    have hf := createGenerator_folders st2 p r.attrs.stSize
    rw [hcg] at hf
    exact hf
  cases cge with
  | error e => exact h3
  | ok g => exact h3

theorem setxUpd_folders_none (st : FsState) (p c v : Str) (pxa : XMap) (q : Str)
    (h : lookupD st.folders q = none) :
    lookupD (setxUpdatedState st p c v pxa).folders q = none := by
  have h2 : (setxUpdatedState st p c v pxa).folders = (updateMtime st p).folders := rfl
  rw [h2]
  exact updateMtime_folders_none st p q h

theorem setxF_folders_none (q : Str) :
    ∀ (n : Nat) (c : SetxCall) (st : FsState) (nm v : Str),
      lookupD st.folders q = none →
      lookupD (((setxF n c st nm v)).2).folders q = none := by
  intro n
  induction n with
  | zero => intro c st nm v h; exact h
  | succ n ih =>
      intro c st nm v h
      rw [setxF_succ]
      cases c with
      | one p =>
          simp only [setxStep]
          split
          · exact h
          · rename_i pxa hx
            split
            · exact h
            · unfold setxOneChanged
              split
              · exact ih _ _ _ _ (setxUpd_folders_none st p _ v pxa q h)
              · split
                · rename_i r hfr
                  rw [setxRebuild_folders]
                  exact setxUpd_folders_none st p _ v pxa q h
                · exact setxUpd_folders_none st p _ v pxa q h
      | many ps =>
          cases ps with
          | nil =>
              simp only [setxStep]
              exact h
          | cons f0 fs =>
              simp only [setxStep]
              rcases h1 : setxF n (.one f0) st nm v with ⟨r1, st1⟩
              have hst1 : lookupD st1.folders q = none := by
                have hp := ih (.one f0) st nm v h
                rw [h1] at hp
                exact hp
              cases r1 with
              | error e => exact hst1
              | ok u1 => exact ih (.many fs) st1 nm v hst1

theorem copyXattr_folders_none (path key : Str) (v? : Option Str)
    (acc : (Except FsErr Unit) × FsState) (q : Str)
    (h : lookupD acc.2.folders q = none) :
    lookupD (((copyXattr path key v? acc)).2).folders q = none := by
  rcases acc with ⟨e, st⟩
  cases e with
  | error e0 => exact h
  | ok u =>
      cases v? with
      | none => exact h
      | some v => exact setxF_folders_none q setxFuel (.one path) st key v h

theorem copyFolderXattrs_ok_folders (path : Str) (fxa : XMap) (st2 : FsState)
    (r : Except FsErr Unit) (st3 : FsState)
    (heq : copyFolderXattrs path fxa st2 = (r, st3)) (q : Str)
    (h : lookupD st2.folders q = none) : lookupD st3.folders q = none := by
  have hh := copyXattr_folders_none path "user.max_random".data
      (some ((lookupD fxa "user.max_random".data).getD "10".data))
    (copyXattr path "user.padder".data (lookupD fxa "user.padder".data)
      (copyXattr path "user.suffix".data (lookupD fxa "user.suffix".data)
        (copyXattr path "user.prefix".data (lookupD fxa "user.prefix".data)
          (copyXattr path "user.filler".data (lookupD fxa "user.filler".data)
            (copyXattr path "user.generator".data (lookupD fxa "user.generator".data)
              (.ok (), st2)))))) q
    (copyXattr_folders_none path _ _ _ q
      (copyXattr_folders_none path _ _ _ q
        (copyXattr_folders_none path _ _ _ q
          (copyXattr_folders_none path _ _ _ q
            (copyXattr_folders_none path _ _ _ q h)))))
  have heq2 : copyFolderXattrs path fxa st2 =
      copyXattr path "user.max_random".data
        (some ((lookupD fxa "user.max_random".data).getD "10".data))
      (copyXattr path "user.padder".data (lookupD fxa "user.padder".data)
        (copyXattr path "user.suffix".data (lookupD fxa "user.suffix".data)
          (copyXattr path "user.prefix".data (lookupD fxa "user.prefix".data)
            (copyXattr path "user.filler".data (lookupD fxa "user.filler".data)
              (copyXattr path "user.generator".data (lookupD fxa "user.generator".data)
                (.ok (), st2)))))) := rfl
  rw [← heq2, heq] at hh
  exact hh

theorem create_ok_spec (st : FsState) (path : Str) (nfd : Nat) (st' : FsState)
    (hnf : lookupD st.folders path = none)
    (hc : SizefsFuse.create st path = (.ok nfd, st')) :
    lookupD st'.folders path = none ∧
    ∃ m g, matchFile (pathSplit path).2 = some m ∧
      lookupD st'.files path =
        some ⟨⟨regMode, 1, calcSize m, st.clock, st.clock + 1, st.clock + 2⟩, g⟩ ∧
      nfd = st'.fd := by
  rcases hps : pathSplit path with ⟨folder, filename⟩
  simp only [SizefsFuse.create, hps] at hc
  split at hc
  · split at hc
    · exact Except.noConfusion (congrArg Prod.fst hc)
    · rename_i m hm
      split at hc
      · exact Except.noConfusion (congrArg Prod.fst hc)
      · rename_i u st3 heq
        split at hc
        · exact Except.noConfusion (congrArg Prod.fst hc)
        · rename_i g st4 heq2
          have h3 : lookupD st3.folders path = none :=
            copyFolderXattrs_ok_folders _ _ _ _ _ heq path hnf
          have h4 : st4.folders = st3.folders := by
            have hf := createGenerator_folders st3 path (calcSize m)
            rw [heq2] at hf
            exact hf
          rw [Prod.mk.injEq] at hc
          obtain ⟨hfst, hsnd⟩ := hc
          subst hsnd
          refine ⟨?_, m, g, ?_, ?_, ?_⟩
          · show lookupD st4.folders path = none
            rw [h4]
            exact h3
          · exact hm
          · show lookupD (setD st4.files path _) path = some _
            exact lookupD_setD_self _ _ _
          · show nfd = st4.fd + 1
            injection hfst with hfd
            exact hfd.symm
  · exact Except.noConfusion (congrArg Prod.fst hc)

/-- Claim C10 (amended): on a path not yet in the namespace (neither a
folder nor a file), `getattr` behaves as follows.  If the basename is
neither `.` nor `..`, the parent is not the root, and the underlying
`create` succeeds, the file has been lazily created exactly as `create`
creates it — regular-file mode, `st_size` the parsed size — `getattr`
returns those attributes alongside the post-`create` state, and a later
`open` of the same path succeeds.  A basename of `.` (resp. `..`)
resolves to the parent's (resp. grandparent's) directory attributes
when that directory is known, `ENOENT` otherwise.  A root-parent path
gives `ENOENT` without any creation attempt.  When `create` fails, an
`EPERM` failure (bad basename or unknown parent) is translated to
`ENOENT` and any other error propagates unchanged. -/
theorem getattr_lazy_create_or_enoent
    (st : FsState) (path : Str)
    (hnf : lookupD st.folders path = none)
    (hff : lookupD st.files path = none) :
    (∀ n st', (pathSplit path).2 ≠ ['.'] → (pathSplit path).2 ≠ ['.', '.'] →
        (pathSplit path).1 ≠ ['/'] →
        SizefsFuse.create st path = (.ok n, st') →
        ∃ m r, matchFile (pathSplit path).2 = some m ∧
          lookupD st'.files path = some r ∧
          r.attrs.stSize = calcSize m ∧
          r.attrs.stMode = regMode ∧
          SizefsFuse.getattr st path = (.ok r.attrs, st') ∧
          (SizefsFuse.open st' path).1 = .ok (st'.fd + 1)) ∧
    ((pathSplit path).2 = ['.'] →
        SizefsFuse.getattr st path =
          (match lookupD st.folders (pathSplit path).1 with
           | some a => (.ok a, st)
           | none => (.error .ENOENT, st))) ∧
    ((pathSplit path).2 = ['.', '.'] →
        SizefsFuse.getattr st path =
          (match lookupD st.folders (pathSplit (pathSplit path).1).1 with
           | some a => (.ok a, st)
           | none => (.error .ENOENT, st))) ∧
    ((pathSplit path).2 ≠ ['.'] → (pathSplit path).2 ≠ ['.', '.'] →
        (pathSplit path).1 = ['/'] →
        SizefsFuse.getattr st path = (.error .ENOENT, st)) ∧
    (∀ e st', (pathSplit path).2 ≠ ['.'] → (pathSplit path).2 ≠ ['.', '.'] →
        (pathSplit path).1 ≠ ['/'] →
        SizefsFuse.create st path = (.error e, st') →
        SizefsFuse.getattr st path =
          (if e = .EPERM then ((.error .ENOENT, st') : (Except FsErr Attrs) × FsState)
           else (.error e, st'))) := by
  rcases hps : pathSplit path with ⟨folder, filename⟩
  refine ⟨?_, ?_, ?_, ?_, ?_⟩
  · intro n st' hdot hddot hroot hc
    have hdot' : filename ≠ ['.'] := hdot
    have hddot' : filename ≠ ['.', '.'] := hddot
    have hroot' : folder ≠ ['/'] := hroot
    obtain ⟨h3, m, g, hm, hlook, hfd⟩ := create_ok_spec st path n st' hnf hc
    rw [hps] at hm
    refine ⟨m, ⟨⟨regMode, 1, calcSize m, st.clock, st.clock + 1, st.clock + 2⟩, g⟩,
      hm, hlook, by rfl, by dsimp only, ?_, ?_⟩
    · unfold SizefsFuse.getattr
      rw [hps]
      simp only [hnf, hff]
      rw [if_neg hdot', if_neg hddot', if_neg hroot']
      simp only [hc, h3, hlook]
    · have hmem : memD st'.files path = true := by
        rw [memD, hlook]
        rfl
      unfold SizefsFuse.open
      rw [if_pos hmem]
  · intro hdot
    have hdot' : filename = ['.'] := hdot
    unfold SizefsFuse.getattr
    rw [hps]
    simp only [hnf, hff]
    rw [if_pos hdot']
  · intro hddot
    have hddot' : filename = ['.', '.'] := hddot
    have hne : filename ≠ ['.'] := by
      rw [hddot']
      decide
    unfold SizefsFuse.getattr
    rw [hps]
    simp only [hnf, hff]
    rw [if_neg hne, if_pos hddot']
  · intro hdot hddot hroot
    have hdot' : filename ≠ ['.'] := hdot
    have hddot' : filename ≠ ['.', '.'] := hddot
    have hroot' : folder = ['/'] := hroot
    unfold SizefsFuse.getattr
    rw [hps]
    simp only [hnf, hff]
    rw [if_neg hdot', if_neg hddot', if_pos hroot']
  · intro e st' hdot hddot hroot hc
    have hdot' : filename ≠ ['.'] := hdot
    have hddot' : filename ≠ ['.', '.'] := hddot
    have hroot' : folder ≠ ['/'] := hroot
    unfold SizefsFuse.getattr
    rw [hps]
    simp only [hnf, hff]
    rw [if_neg hdot', if_neg hddot', if_neg hroot']
    simp only [hc]

/-- Concrete instances of `getattr_lazy_create_or_enoent` on the
`/zeros` seed directory: a fresh `/zeros/5B` is lazily created and a
later `open` succeeds; `/zeros/.` resolves to `/zeros`; `/zeros/..`
resolves to the root; an unknown name directly under the root gets
`ENOENT` with the state untouched; a basename failing the grammar gets
`ENOENT` via the translated `EPERM`. -/
theorem getattr_lazy_create_or_enoent_witness :
    (∃ m r, matchFile (pathSplit "/zeros/5B".data).2 = some m ∧
        lookupD ((SizefsFuse.create stZeros "/zeros/5B".data).2).files "/zeros/5B".data = some r ∧
        r.attrs.stSize = calcSize m ∧
        r.attrs.stMode = regMode ∧
        SizefsFuse.getattr stZeros "/zeros/5B".data =
          (.ok r.attrs, (SizefsFuse.create stZeros "/zeros/5B".data).2) ∧
        (SizefsFuse.open (SizefsFuse.create stZeros "/zeros/5B".data).2 "/zeros/5B".data).1 =
          .ok (((SizefsFuse.create stZeros "/zeros/5B".data).2).fd + 1)) ∧
    (SizefsFuse.getattr stZeros "/zeros/.".data =
        (match lookupD stZeros.folders (pathSplit "/zeros/.".data).1 with
         | some a => (.ok a, stZeros)
         | none => (.error .ENOENT, stZeros))) ∧
    (SizefsFuse.getattr stZeros "/zeros/..".data =
        (match lookupD stZeros.folders (pathSplit (pathSplit "/zeros/..".data).1).1 with
         | some a => (.ok a, stZeros)
         | none => (.error .ENOENT, stZeros))) ∧
    SizefsFuse.getattr stZeros "/5B".data = (.error .ENOENT, stZeros) ∧
    SizefsFuse.getattr stZeros "/zeros/bad".data =
      (if FsErr.EPERM = .EPERM then
          ((.error .ENOENT, (SizefsFuse.create stZeros "/zeros/bad".data).2) :
            (Except FsErr Attrs) × FsState)
       else (.error .EPERM, (SizefsFuse.create stZeros "/zeros/bad".data).2)) := by
  refine ⟨?_, ?_, ?_, ?_, ?_⟩
  · exact (getattr_lazy_create_or_enoent stZeros "/zeros/5B".data (by decide) (by rfl)).1
      1 (SizefsFuse.create stZeros "/zeros/5B".data).2
      (by decide) (by decide) (by decide)
      (Prod.ext_iff.mpr ⟨by decide, rfl⟩)
  · exact (getattr_lazy_create_or_enoent stZeros "/zeros/.".data (by decide) (by rfl)).2.1
      (by decide)
  · exact (getattr_lazy_create_or_enoent stZeros "/zeros/..".data (by decide) (by rfl)).2.2.1
      (by decide)
  · exact (getattr_lazy_create_or_enoent stZeros "/5B".data (by decide) (by rfl)).2.2.2.1
      (by decide) (by decide) (by decide)
  · exact (getattr_lazy_create_or_enoent stZeros "/zeros/bad".data (by decide) (by rfl)).2.2.2.2
      .EPERM (SizefsFuse.create stZeros "/zeros/bad".data).2
      (by decide) (by decide) (by decide)
      (Prod.ext_iff.mpr ⟨by decide, rfl⟩)
